import Mathlib

set_option maxHeartbeats 1000000

namespace AlertUpgrade

/- Shallow embedding of pkg/controllers/user/alert/deployer/upgradeimpl.go.
   Record types mirror the rancher/types structs the code reads and writes
   (only the fields the code touches); external collaborators (the resource
   store, listers, reference codecs) are modelled per the interface the spec
   describes in section 6.  Go ints are modelled as Int, Go maps and label
   selectors as association lists, nilable Go pointers and maps as Option. -/

/-- Error kinds surfaced by the external resource store; the code inspects
them through the IsNotFound and IsAlreadyExists predicates. -/
inductive StoreErr : Type
  | notFound
  | alreadyExists
  | other (msg : String)
  deriving DecidableEq, Repr

/-- Modelled from the spec: the message rendering of a store error, used
where the code interpolates the error into a formatted message. -/
def StoreErr.message : StoreErr → String
  | .notFound => "not found"
  | .alreadyExists => "already exists"
  | .other m => m

/-- Outcome of running a Go function: normal return value, error return, or
runtime panic. -/
inductive GoResult (α : Type) : Type
  | ok (val : α)
  | err (msg : String)
  | panics (msg : String)
  deriving DecidableEq, Repr

/-- Timing block shared by alert groups and alert rules (v3.TimingField). -/
structure TimingField where
  groupWaitSeconds : Int
  groupIntervalSeconds : Int
  repeatIntervalSeconds : Int
  deriving DecidableEq, Repr

/-- Modelled from the spec: a notification target, copied verbatim by the
migration (the v3.Recipient struct is not part of the visible source). -/
structure Recipient where
  notifierName : String
  notifierType : String
  recipient : String
  deriving DecidableEq, Repr

/-- Modelled from the spec: node target of a legacy cluster alert
(name, selector, condition and thresholds). -/
structure TargetNode where
  nodeName : String
  selector : List (String × String)
  condition : String
  memThreshold : Int
  cpuThreshold : Int
  deriving DecidableEq, Repr

/-- Modelled from the spec: event target of a legacy cluster alert. -/
structure TargetEvent where
  eventType : String
  resourceKind : String
  deriving DecidableEq, Repr

/-- Modelled from the spec: system-service target of a legacy cluster
alert. -/
structure TargetSystemService where
  condition : String
  deriving DecidableEq, Repr

/-- Modelled from the spec: pod target of a legacy project alert. -/
structure TargetPod where
  podName : String
  condition : String
  restartTimes : Int
  restartIntervalSeconds : Int
  deriving DecidableEq, Repr

/-- Modelled from the spec: workload target of a legacy project alert. -/
structure TargetWorkload where
  workloadID : String
  selector : List (String × String)
  availablePercentage : Int
  deriving DecidableEq, Repr

/-- Spec of a legacy cluster alert: the fields upgradeimpl.go reads. -/
structure ClusterAlertSpec where
  displayName : String
  severity : String
  initialWaitSeconds : Int
  repeatIntervalSeconds : Int
  recipients : List Recipient
  targetNode : Option TargetNode
  targetEvent : Option TargetEvent
  targetSystemService : Option TargetSystemService
  deriving DecidableEq, Repr

/-- A legacy cluster alert record (object meta restricted to name and
namespace, the parts the code reads). -/
structure ClusterAlert where
  name : String
  ns : String
  spec : ClusterAlertSpec
  deriving DecidableEq, Repr

/-- Spec of a legacy project alert: the fields upgradeimpl.go reads. -/
structure ProjectAlertSpec where
  projectName : String
  displayName : String
  severity : String
  initialWaitSeconds : Int
  repeatIntervalSeconds : Int
  recipients : List Recipient
  targetPod : Option TargetPod
  targetWorkload : Option TargetWorkload
  deriving DecidableEq, Repr

/-- A legacy project alert record. -/
structure ProjectAlert where
  name : String
  ns : String
  spec : ProjectAlertSpec
  deriving DecidableEq, Repr

/-- Node specialization of a new-model rule (v3.NodeRule). -/
structure NodeRule where
  nodeName : String
  selector : List (String × String)
  condition : String
  memThreshold : Int
  cpuThreshold : Int
  deriving DecidableEq, Repr

/-- Event specialization of a new-model rule (v3.EventRule). -/
structure EventRule where
  eventType : String
  resourceKind : String
  deriving DecidableEq, Repr

/-- System-service specialization of a new-model rule. -/
structure SystemServiceRule where
  condition : String
  deriving DecidableEq, Repr

/-- Pod specialization of a new-model project rule (v3.PodRule). -/
structure PodRule where
  podName : String
  condition : String
  restartTimes : Int
  restartIntervalSeconds : Int
  deriving DecidableEq, Repr

/-- Workload specialization of a new-model project rule. -/
structure WorkloadRule where
  workloadID : String
  selector : List (String × String)
  availablePercentage : Int
  deriving DecidableEq, Repr

/-- Common fields of a new-model rule (v3.CommonRuleField). -/
structure CommonRuleField where
  displayName : String
  severity : String
  timingField : TimingField
  deriving DecidableEq, Repr

/-- Spec of a new-model cluster alert rule. -/
structure ClusterAlertRuleSpec where
  clusterName : String
  groupName : String
  commonRuleField : CommonRuleField
  nodeRule : Option NodeRule
  eventRule : Option EventRule
  systemServiceRule : Option SystemServiceRule
  deriving DecidableEq, Repr

/-- A new-model cluster alert rule record. -/
structure ClusterAlertRule where
  name : String
  ns : String
  spec : ClusterAlertRuleSpec
  deriving DecidableEq, Repr

/-- Common fields of a new-model alert group (v3.CommonGroupField). -/
structure CommonGroupField where
  displayName : String
  description : String
  timingField : TimingField
  deriving DecidableEq, Repr

/-- Spec of a new-model cluster alert group. -/
structure ClusterGroupSpec where
  clusterName : String
  commonGroupField : CommonGroupField
  recipients : List Recipient
  deriving DecidableEq, Repr

/-- A new-model cluster alert group record. -/
structure ClusterAlertGroup where
  name : String
  ns : String
  spec : ClusterGroupSpec
  deriving DecidableEq, Repr

/-- Spec of a new-model project alert rule. -/
structure ProjectAlertRuleSpec where
  projectName : String
  groupName : String
  commonRuleField : CommonRuleField
  podRule : Option PodRule
  workloadRule : Option WorkloadRule
  deriving DecidableEq, Repr

/-- A new-model project alert rule record. -/
structure ProjectAlertRule where
  name : String
  ns : String
  spec : ProjectAlertRuleSpec
  deriving DecidableEq, Repr

/-- Spec of a new-model project alert group. -/
structure ProjectGroupSpec where
  projectName : String
  commonGroupField : CommonGroupField
  recipients : List Recipient
  deriving DecidableEq, Repr

/-- A new-model project alert group record. -/
structure ProjectAlertGroup where
  name : String
  ns : String
  spec : ProjectGroupSpec
  deriving DecidableEq, Repr

/-- Fixed group interval applied to every migrated rule and group
(const defaultGroupIntervalSeconds = 180 in upgradeimpl.go). -/
def defaultGroupIntervalSeconds : Int := 180

/-- Modelled from the spec: the composite group identifier, scope plus
group name, that rules use to reference their owning group
(alertutil.GetGroupID). -/
def GetGroupID (scope name : String) : String := scope ++ ":" ++ name

/-- Split of a character list at the first colon, when one occurs. -/
def splitAtColon : List Char → Option (List Char × List Char)
  | [] => none
  | c :: rest =>
    if c = ':' then some ([], rest)
    else
      match splitAtColon rest with
      | none => none
      | some (a, b) => some (c :: a, b)

/-- Modelled from the spec: split of a composite scope:name identifier into
its two parts at the first separator (ref.Parse); an identifier without a
separator parses as an empty scope. -/
def refParse (id : String) : String × String :=
  match splitAtColon id.data with
  | none => ("", id)
  | some (a, b) => (String.mk a, String.mk b)

/-- Modelled from the spec: whether a project alert belongs to the given
cluster (controller.ObjectInCluster); the cluster is the scope part of the
composite project identifier carried by the alert. -/
def objectInCluster (clusterName : String) (a : ProjectAlert) : Bool :=
  (refParse a.spec.projectName).1 == clusterName

/-- The new cluster rule built for a legacy cluster alert: derived name,
timing carried over with the fixed group interval, and each target
specialization copied field by field when present (upgradeimpl.go lines
182 to 227). -/
def newClusterRule (clusterName : String) (v : ClusterAlert) : ClusterAlertRule :=
  { name := "migrate-" ++ v.name
    ns := clusterName
    spec :=
      { clusterName := clusterName
        groupName := GetGroupID clusterName ("migrate-group-" ++ v.name)
        commonRuleField :=
          { displayName := v.spec.displayName
            severity := v.spec.severity
            timingField :=
              { groupWaitSeconds := v.spec.initialWaitSeconds
                groupIntervalSeconds := defaultGroupIntervalSeconds
                repeatIntervalSeconds := v.spec.repeatIntervalSeconds } }
        nodeRule := v.spec.targetNode.map (fun t =>
          { nodeName := t.nodeName
            selector := t.selector
            condition := t.condition
            memThreshold := t.memThreshold
            cpuThreshold := t.cpuThreshold })
        eventRule := v.spec.targetEvent.map (fun t =>
          { eventType := t.eventType
            resourceKind := t.resourceKind })
        systemServiceRule := v.spec.targetSystemService.map (fun t =>
          { condition := t.condition }) } }

/-- The migration group built for a legacy cluster alert (upgradeimpl.go
lines 245 to 263). -/
def clusterLegacyGroup (clusterName : String) (v : ClusterAlert) : ClusterAlertGroup :=
  { name := "migrate-group-" ++ v.name
    ns := clusterName
    spec :=
      { clusterName := clusterName
        commonGroupField :=
          { displayName := "Migrate group"
            description := "Migrate alert from last version"
            timingField :=
              { groupWaitSeconds := v.spec.initialWaitSeconds
                groupIntervalSeconds := defaultGroupIntervalSeconds
                repeatIntervalSeconds := v.spec.repeatIntervalSeconds } }
        recipients := v.spec.recipients } }

/-- The new project rule built for a legacy project alert (upgradeimpl.go
lines 290 to 329). -/
def newProjectRule (projectID projectName : String) (v : ProjectAlert) : ProjectAlertRule :=
  { name := "migrate-rule-" ++ v.name
    ns := projectName
    spec :=
      { projectName := projectID
        groupName := GetGroupID projectName ("migrate-group-" ++ v.name)
        commonRuleField :=
          { displayName := v.spec.displayName
            severity := v.spec.severity
            timingField :=
              { groupWaitSeconds := v.spec.initialWaitSeconds
                groupIntervalSeconds := defaultGroupIntervalSeconds
                repeatIntervalSeconds := v.spec.repeatIntervalSeconds } }
        podRule := v.spec.targetPod.map (fun t =>
          { podName := t.podName
            condition := t.condition
            restartTimes := t.restartTimes
            restartIntervalSeconds := t.restartIntervalSeconds })
        workloadRule := v.spec.targetWorkload.map (fun t =>
          { workloadID := t.workloadID
            selector := t.selector
            availablePercentage := t.availablePercentage }) } }

/-- The migration group built for a legacy project alert (upgradeimpl.go
lines 348 to 366). -/
def projectLegacyGroup (projectID projectName : String) (v : ProjectAlert) : ProjectAlertGroup :=
  { name := "migrate-group-" ++ v.name
    ns := projectName
    spec :=
      { projectName := projectID
        commonGroupField :=
          { displayName := "Migrate group"
            description := "Migrate alert from last version"
            timingField :=
              { groupWaitSeconds := v.spec.initialWaitSeconds
                groupIntervalSeconds := defaultGroupIntervalSeconds
                repeatIntervalSeconds := v.spec.repeatIntervalSeconds } }
        recipients := v.spec.recipients } }

/-- Claim C2: for every legacy alert, cluster or project scoped, the
migrated rule carries group-wait seconds equal to the legacy initial-wait
seconds, repeat-interval seconds equal to the legacy repeat-interval
seconds, and group-interval seconds equal to the fixed default 180,
independent of every other field of the legacy alert. -/
theorem timing_translation (cn pid pn : String) (v : ClusterAlert) (w : ProjectAlert) :
    (newClusterRule cn v).spec.commonRuleField.timingField =
      { groupWaitSeconds := v.spec.initialWaitSeconds
        groupIntervalSeconds := defaultGroupIntervalSeconds
        repeatIntervalSeconds := v.spec.repeatIntervalSeconds } ∧
    (newProjectRule pid pn w).spec.commonRuleField.timingField =
      { groupWaitSeconds := w.spec.initialWaitSeconds
        groupIntervalSeconds := defaultGroupIntervalSeconds
        repeatIntervalSeconds := w.spec.repeatIntervalSeconds } ∧
    defaultGroupIntervalSeconds = 180 :=
  ⟨rfl, rfl, rfl⟩

/-- Claim C3: translation is a total function producing exactly one rule,
and each target specialization of the produced rule is exactly the image of
the corresponding legacy target: present, with the fields copied over, when
the legacy alert carries that target, and absent otherwise.  In particular
a legacy alert with a single specialization yields a rule where exactly the
matching specialization is set, and one with none yields a rule with none
set. -/
theorem translation_specialization (cn pid pn : String) (v : ClusterAlert) (w : ProjectAlert) :
    (newClusterRule cn v).spec.nodeRule = v.spec.targetNode.map (fun t =>
        { nodeName := t.nodeName, selector := t.selector, condition := t.condition
          memThreshold := t.memThreshold, cpuThreshold := t.cpuThreshold }) ∧
    (newClusterRule cn v).spec.eventRule = v.spec.targetEvent.map (fun t =>
        { eventType := t.eventType, resourceKind := t.resourceKind }) ∧
    (newClusterRule cn v).spec.systemServiceRule = v.spec.targetSystemService.map (fun t =>
        { condition := t.condition }) ∧
    (newProjectRule pid pn w).spec.podRule = w.spec.targetPod.map (fun t =>
        { podName := t.podName, condition := t.condition
          restartTimes := t.restartTimes, restartIntervalSeconds := t.restartIntervalSeconds }) ∧
    (newProjectRule pid pn w).spec.workloadRule = w.spec.targetWorkload.map (fun t =>
        { workloadID := t.workloadID, selector := t.selector
          availablePercentage := t.availablePercentage }) ∧
    ((newClusterRule cn v).spec.nodeRule.isSome = v.spec.targetNode.isSome ∧
     (newClusterRule cn v).spec.eventRule.isSome = v.spec.targetEvent.isSome ∧
     (newClusterRule cn v).spec.systemServiceRule.isSome = v.spec.targetSystemService.isSome ∧
     (newProjectRule pid pn w).spec.podRule.isSome = w.spec.targetPod.isSome ∧
     (newProjectRule pid pn w).spec.workloadRule.isSome = w.spec.targetWorkload.isSome) := by
  refine ⟨rfl, rfl, rfl, rfl, rfl, ?_, ?_, ?_, ?_, ?_⟩ <;>
    simp [newClusterRule, newProjectRule]

/-- Claim C9: migration derives, from a legacy cluster alert named n, the
rule name migrate-n and the group name migrate-group-n, and from a legacy
project alert named n the rule name migrate-rule-n and the group name
migrate-group-n; the derived names depend only on the legacy name, and each
migrated rule references the group derived from the same legacy alert by
its composite identifier, scope plus group name. -/
theorem derived_names (cn pid pn : String) (v : ClusterAlert) (w : ProjectAlert) :
    (newClusterRule cn v).name = "migrate-" ++ v.name ∧
    (clusterLegacyGroup cn v).name = "migrate-group-" ++ v.name ∧
    (newClusterRule cn v).spec.groupName = GetGroupID cn ("migrate-group-" ++ v.name) ∧
    (newProjectRule pid pn w).name = "migrate-rule-" ++ w.name ∧
    (projectLegacyGroup pid pn w).name = "migrate-group-" ++ w.name ∧
    (newProjectRule pid pn w).spec.groupName = GetGroupID pn ("migrate-group-" ++ w.name) :=
  ⟨rfl, rfl, rfl, rfl, rfl, rfl⟩

/-- Migration-facing slice of the resource store: the typed record
collections the migration functions read and write.  Cluster collections
are pre-scoped to the cluster (keyed by name alone, as the code uses
clients bound to the cluster namespace); project collections span all
namespaces (keyed by namespace and name, matching GetNamespaced). -/
structure MigState where
  clusterRules : List ClusterAlertRule
  clusterGroups : List ClusterAlertGroup
  projectRules : List ProjectAlertRule
  projectGroups : List ProjectAlertGroup
  namespaces : List String
  deriving DecidableEq, Repr

/-- Key of a cluster alert rule in its cluster-scoped collection. -/
def clusterRuleKey (r : ClusterAlertRule) : String := r.name

/-- Key of a cluster alert group in its cluster-scoped collection. -/
def clusterGroupKey (g : ClusterAlertGroup) : String := g.name

/-- Key of a project alert rule: namespace and name. -/
def projectRuleKey (r : ProjectAlertRule) : String × String := (r.ns, r.name)

/-- Key of a project alert group: namespace and name. -/
def projectGroupKey (g : ProjectAlertGroup) : String × String := (g.ns, g.name)

section Store

variable {α : Type} {κ : Type} [DecidableEq κ]

/-- Modelled from the spec: store get, returning the record under the given
key or a not-found error. -/
def storeGet (keyOf : α → κ) (rs : List α) (k : κ) : Except StoreErr α :=
  match rs.find? (fun r => decide (keyOf r = k)) with
  | some r => Except.ok r
  | none => Except.error StoreErr.notFound

/-- Modelled from the spec: store create, appending the record or failing
with already-exists when its key is taken. -/
def storeCreate (keyOf : α → κ) (rs : List α) (r : α) : Except StoreErr (List α) :=
  if rs.any (fun x => decide (keyOf x = keyOf r)) then Except.error StoreErr.alreadyExists
  else Except.ok (rs ++ [r])

/-- Modelled from the spec: store update, replacing the record under the
key of the supplied record or failing with not-found. -/
def storeUpdate (keyOf : α → κ) (rs : List α) (r : α) : Except StoreErr (List α) :=
  if rs.any (fun x => decide (keyOf x = keyOf r)) then
    Except.ok (rs.map (fun x => if keyOf x = keyOf r then r else x))
  else Except.error StoreErr.notFound

/-- Modelled from the spec: store delete by key, failing with not-found
when no record carries the key. -/
def storeDelete (keyOf : α → κ) (rs : List α) (k : κ) : Except StoreErr (List α) :=
  if rs.any (fun x => decide (keyOf x = k)) then
    Except.ok (rs.filter (fun x => decide (¬ keyOf x = k)))
  else Except.error StoreErr.notFound

/-- The per-rule upsert sequence both migration functions repeat: fetch the
rule by its derived key; when absent, create it, treating already-exists as
success; when present, copy it, overwrite its spec with the translated one
and update (upgradeimpl.go lines 229 to 244 and 331 to 346). -/
def ruleUpsert (keyOf : α → κ) (put : α → α → α)
    (msgGet msgCreate msgUpdate : String) (rs : List α) (fresh : α) :
    Except String (List α) :=
  match storeGet keyOf rs (keyOf fresh) with
  | Except.error e =>
    if e ≠ StoreErr.notFound then Except.error (msgGet ++ ", " ++ e.message)
    else
      match storeCreate keyOf rs fresh with
      | Except.error e2 =>
        if e2 = StoreErr.alreadyExists then Except.ok rs
        else Except.error (msgCreate ++ ", " ++ e2.message)
      | Except.ok rs2 => Except.ok rs2
  | Except.ok old =>
    match storeUpdate keyOf rs (put old fresh) with
    | Except.error e => Except.error (msgUpdate ++ ", " ++ e.message)
    | Except.ok rs2 => Except.ok rs2

/-- The per-group create both migration functions repeat: create the
migration group, treating already-exists as success and never updating an
existing group (upgradeimpl.go lines 265 to 268 and 368 to 371). -/
def groupCreate (keyOf : α → κ) (msgCreate : String) (gs : List α) (g : α) :
    Except String (List α) :=
  match storeCreate keyOf gs g with
  | Except.error e =>
    if e = StoreErr.alreadyExists then Except.ok gs
    else Except.error (msgCreate ++ ", " ++ e.message)
  | Except.ok gs2 => Except.ok gs2

end Store

/-- Migration of one legacy cluster alert: upsert the derived rule, then
create the derived group tolerating already-exists (the body of the loop in
migrateLegacyClusterAlert, upgradeimpl.go lines 181 to 269). -/
def migrateOneClusterAlert (clusterName : String) (st : MigState) (v : ClusterAlert) :
    Except String MigState :=
  match ruleUpsert clusterRuleKey (fun old fresh => { old with spec := fresh.spec })
      ("migrate " ++ v.ns ++ ":" ++ v.name ++ " failed, get alert rule failed")
      ("migrate " ++ v.ns ++ ":" ++ v.name ++ " failed, create alert rule failed")
      ("migrate " ++ v.ns ++ ":" ++ v.name ++ " failed, update alert rule failed")
      st.clusterRules (newClusterRule clusterName v) with
  | Except.error e => Except.error e
  | Except.ok rules2 =>
    match groupCreate clusterGroupKey
        ("migrate failed, create alert group " ++ clusterName ++ ":" ++
          ("migrate-group-" ++ v.name) ++ " failed")
        st.clusterGroups (clusterLegacyGroup clusterName v) with
    | Except.error e => Except.error e
    | Except.ok groups2 => Except.ok { st with clusterRules := rules2, clusterGroups := groups2 }

/-- The migration loop shape shared by both migration functions: process
the records in order, returning the first error and threading the store
state otherwise. -/
def foldSteps {σ β : Type} (step : σ → β → Except String σ) : σ → List β → Except String σ
  | s, [] => Except.ok s
  | s, v :: t =>
    match step s v with
    | Except.error e => Except.error e
    | Except.ok s1 => foldSteps step s1 t

/-- Migration of every legacy cluster alert, in listing order
(migrateLegacyClusterAlert, upgradeimpl.go lines 176 to 271; the listing
itself is supplied by the store collaborator). -/
def migrateLegacyClusterAlert (clusterName : String) (oldClusterAlert : List ClusterAlert)
    (st : MigState) : Except String MigState :=
  foldSteps (migrateOneClusterAlert clusterName) st oldClusterAlert

/-- Migration of one legacy project alert within its owning project
(the inner loop body of migrateLegacyProjectAlert, upgradeimpl.go lines 289
to 372). -/
def migrateOneProjectAlert (projectID projectName : String) (st : MigState)
    (v : ProjectAlert) : Except String MigState :=
  match ruleUpsert projectRuleKey (fun old fresh => { old with spec := fresh.spec })
      ("migrate " ++ v.ns ++ ":" ++ v.name ++ " failed, get alert rule failed")
      ("migrate " ++ v.ns ++ ":" ++ v.name ++ " failed, create alert rule failed")
      ("migrate " ++ v.ns ++ ":" ++ v.name ++ " failed, update alert rule failed")
      st.projectRules (newProjectRule projectID projectName v) with
  | Except.error e => Except.error e
  | Except.ok rules2 =>
    match groupCreate projectGroupKey
        ("create migrate alert group " ++ projectName ++ ":" ++
          ("migrate-group-" ++ v.name) ++ " failed")
        st.projectGroups (projectLegacyGroup projectID projectName v) with
    | Except.error e => Except.error e
    | Except.ok groups2 => Except.ok { st with projectRules := rules2, projectGroups := groups2 }

/-- Insertion of a project alert into the per-project buckets, preserving
first-occurrence ordering of projects (the Go code buckets into a map; the
model fixes the iteration order to first occurrence). -/
def addAlert (acc : List (String × List ProjectAlert)) (pid : String) (v : ProjectAlert) :
    List (String × List ProjectAlert) :=
  match acc with
  | [] => [(pid, [v])]
  | (p, vs) :: rest =>
    if p = pid then (p, vs ++ [v]) :: rest else (p, vs) :: addAlert rest pid v

/-- Bucketing of the filtered project alerts by owning project identifier
(upgradeimpl.go lines 279 to 284). -/
def groupByProject (l : List ProjectAlert) : List (String × List ProjectAlert) :=
  l.foldl (fun acc v => addAlert acc v.spec.projectName v) []

/-- Migration of one project bucket: the project name is parsed from the
composite project identifier once, then each alert of the bucket is
migrated in order (the outer loop body, upgradeimpl.go lines 286 to 373). -/
def projBucketStep (st2 : MigState) (pg : String × List ProjectAlert) :
    Except String MigState :=
  foldSteps (migrateOneProjectAlert pg.1 (refParse pg.1).2) st2 pg.2

/-- Migration of every legacy project alert of the cluster: filter to the
cluster, bucket by project, then upsert rule and create group per alert
(migrateLegacyProjectAlert, upgradeimpl.go lines 273 to 375). -/
def migrateLegacyProjectAlert (clusterName : String) (oldProjectAlert : List ProjectAlert)
    (st : MigState) : Except String MigState :=
  foldSteps projBucketStep st
    (groupByProject (oldProjectAlert.filter (objectInCluster clusterName)))

/-- Deletion of the fixed legacy alerting namespace, treating not-found as
success (removeLegacyAlerting, upgradeimpl.go lines 377 to 384). -/
def removeLegacyAlerting (st : MigState) : Except String MigState :=
  match storeDelete (fun (n : String) => n) st.namespaces "cattle-alerting" with
  | Except.error e =>
    if e = StoreErr.notFound then Except.ok st
    else Except.error "failed to remove legacy alerting namespace when upgrade"
  | Except.ok ns2 => Except.ok { st with namespaces := ns2 }

section StoreLemmas

variable {α : Type} {κ : Type} [DecidableEq κ]

/-- The record under a key: present, carrying the key, and the only record
in the collection carrying it. -/
def soleEntry (keyOf : α → κ) (rs : List α) (k : κ) (r0 : α) : Prop :=
  r0 ∈ rs ∧ keyOf r0 = k ∧ ∀ r ∈ rs, keyOf r = k → r = r0

/-- Some record in the collection carries the key. -/
def hasKey (keyOf : α → κ) (rs : List α) (k : κ) : Prop :=
  ∃ r ∈ rs, keyOf r = k

/-- A fresh record has been upserted: a sole record sits under its key and
overwriting that record's spec with the fresh one changes nothing. -/
def upserted (keyOf : α → κ) (put : α → α → α) (fresh : α) (rs : List α) : Prop :=
  ∃ r0, soleEntry keyOf rs (keyOf fresh) r0 ∧ put r0 fresh = r0

theorem storeGet_ok_mem {keyOf : α → κ} {rs : List α} {k : κ} {r : α}
    (h : storeGet keyOf rs k = Except.ok r) : r ∈ rs ∧ keyOf r = k := by
  unfold storeGet at h
  cases hf : rs.find? (fun x => decide (keyOf x = k)) with
  | none => rw [hf] at h; exact absurd h (by simp)
  | some x =>
    rw [hf] at h
    have hx : x = r := by simpa using h
    subst hx
    refine ⟨List.mem_of_find?_eq_some hf, ?_⟩
    have := List.find?_some hf
    simpa using this

theorem storeGet_error_elim {keyOf : α → κ} {rs : List α} {k : κ} {e : StoreErr}
    (h : storeGet keyOf rs k = Except.error e) :
    e = StoreErr.notFound ∧ ∀ r ∈ rs, keyOf r ≠ k := by
  unfold storeGet at h
  cases hf : rs.find? (fun x => decide (keyOf x = k)) with
  | none =>
    rw [hf] at h
    have he : e = StoreErr.notFound := by simpa using h.symm
    refine ⟨he, ?_⟩
    intro r hr
    have := List.find?_eq_none.mp hf r hr
    simpa using this
  | some x => rw [hf] at h; exact absurd h (by simp)

theorem storeGet_of_sole {keyOf : α → κ} {rs : List α} {k : κ} {r0 : α}
    (h : soleEntry keyOf rs k r0) : storeGet keyOf rs k = Except.ok r0 := by
  obtain ⟨hmem, hk, hsole⟩ := h
  unfold storeGet
  cases hf : rs.find? (fun x => decide (keyOf x = k)) with
  | none =>
    exact absurd (by simpa using List.find?_eq_none.mp hf r0 hmem) (by simp [hk])
  | some x =>
    have hx : x = r0 := by
      refine hsole x (List.mem_of_find?_eq_some hf) ?_
      have := List.find?_some hf
      simpa using this
    simp [hx]

theorem storeCreate_ok_elim {keyOf : α → κ} {rs rs2 : List α} {x : α}
    (h : storeCreate keyOf rs x = Except.ok rs2) :
    rs2 = rs ++ [x] ∧ ∀ r ∈ rs, keyOf r ≠ keyOf x := by
  unfold storeCreate at h
  by_cases hc : rs.any (fun r => decide (keyOf r = keyOf x))
  · rw [if_pos hc] at h; exact absurd h (by simp)
  · rw [if_neg hc] at h
    refine ⟨by simpa using h.symm, ?_⟩
    intro r hr hkr
    exact hc (List.any_eq_true.mpr ⟨r, hr, by simp [hkr]⟩)

theorem storeCreate_error_elim {keyOf : α → κ} {rs : List α} {x : α} {e : StoreErr}
    (h : storeCreate keyOf rs x = Except.error e) :
    e = StoreErr.alreadyExists ∧ hasKey keyOf rs (keyOf x) := by
  unfold storeCreate at h
  by_cases hc : rs.any (fun r => decide (keyOf r = keyOf x))
  · rw [if_pos hc] at h
    obtain ⟨r, hr, hkr⟩ := List.any_eq_true.mp hc
    exact ⟨by simpa using h.symm, r, hr, by simpa using hkr⟩
  · rw [if_neg hc] at h; exact absurd h (by simp)

theorem storeUpdate_ok_of_hasKey {keyOf : α → κ} {rs : List α} {x : α}
    (h : hasKey keyOf rs (keyOf x)) :
    storeUpdate keyOf rs x =
      Except.ok (rs.map (fun r => if keyOf r = keyOf x then x else r)) := by
  obtain ⟨r, hr, hkr⟩ := h
  unfold storeUpdate
  rw [if_pos (List.any_eq_true.mpr ⟨r, hr, by simp [hkr]⟩)]

theorem map_eq_self_of {β : Type} {l : List β} {f : β → β}
    (h : ∀ x ∈ l, f x = x) : l.map f = l := by
  calc l.map f = l.map id := List.map_congr_left h
  _ = l := List.map_id l

end StoreLemmas

section UpsertLemmas

variable {α : Type} {κ : Type} [DecidableEq κ]
variable {keyOf : α → κ} {put : α → α → α} {m1 m2 m3 : String}

theorem ruleUpsert_eq_of_get_ok {rs : List α} {fresh old : α}
    (hg : storeGet keyOf rs (keyOf fresh) = Except.ok old) :
    ruleUpsert keyOf put m1 m2 m3 rs fresh =
      match storeUpdate keyOf rs (put old fresh) with
      | Except.error e => Except.error (m3 ++ ", " ++ e.message)
      | Except.ok rs2 => Except.ok rs2 := by
  unfold ruleUpsert
  rw [hg]

theorem ruleUpsert_eq_of_get_err {rs : List α} {fresh : α}
    (hg : storeGet keyOf rs (keyOf fresh) = Except.error StoreErr.notFound) :
    ruleUpsert keyOf put m1 m2 m3 rs fresh =
      match storeCreate keyOf rs fresh with
      | Except.error e2 =>
        if e2 = StoreErr.alreadyExists then Except.ok rs
        else Except.error (m2 ++ ", " ++ e2.message)
      | Except.ok rs2 => Except.ok rs2 := by
  unfold ruleUpsert
  rw [hg]
  rfl

theorem ruleUpsert_ok (keyOf : α → κ) (put : α → α → α) (m1 m2 m3 : String)
    (hkey : ∀ a b, keyOf (put a b) = keyOf a)
    (rs : List α) (fresh : α) :
    ∃ rs2, ruleUpsert keyOf put m1 m2 m3 rs fresh = Except.ok rs2 := by
  cases hg : storeGet keyOf rs (keyOf fresh) with
  | error e =>
    obtain ⟨he, _⟩ := storeGet_error_elim hg
    subst he
    rw [ruleUpsert_eq_of_get_err hg]
    cases hc : storeCreate keyOf rs fresh with
    | error e2 =>
      obtain ⟨he2, _⟩ := storeCreate_error_elim hc
      subst he2
      exact ⟨rs, rfl⟩
    | ok rs2 => exact ⟨rs2, rfl⟩
  | ok old =>
    obtain ⟨hmem, hk⟩ := storeGet_ok_mem hg
    rw [ruleUpsert_eq_of_get_ok hg,
      storeUpdate_ok_of_hasKey ⟨old, hmem, by rw [hkey]⟩]
    exact ⟨_, rfl⟩

theorem ruleUpsert_est {rs rs2 : List α} {fresh : α}
    (h : ruleUpsert keyOf put m1 m2 m3 rs fresh = Except.ok rs2)
    (hkey : ∀ a b, keyOf (put a b) = keyOf a)
    (hidem : ∀ a b, put (put a b) b = put a b)
    (hself : ∀ a, put a a = a) :
    upserted keyOf put fresh rs2 := by
  cases hg : storeGet keyOf rs (keyOf fresh) with
  | error e =>
    obtain ⟨he, hall⟩ := storeGet_error_elim hg
    subst he
    rw [ruleUpsert_eq_of_get_err hg] at h
    cases hc : storeCreate keyOf rs fresh with
    | error e2 =>
      obtain ⟨_, r, hr, hkr⟩ := storeCreate_error_elim hc
      exact absurd hkr (hall r hr)
    | ok rsc =>
      rw [hc] at h
      obtain ⟨hrsc, hfreshAll⟩ := storeCreate_ok_elim hc
      have h2 : Except.ok (α := List α) (ε := String) rsc = Except.ok rs2 := h
      injection h2 with h3
      subst h3
      subst hrsc
      refine ⟨fresh, ⟨List.mem_append_right rs (by simp), rfl, ?_⟩, hself fresh⟩
      intro r hr hkr
      rcases List.mem_append.mp hr with hrl | hrr
      · exact absurd hkr (hfreshAll r hrl)
      · simpa using hrr
  | ok old =>
    obtain ⟨hmem, hk⟩ := storeGet_ok_mem hg
    rw [ruleUpsert_eq_of_get_ok hg,
      storeUpdate_ok_of_hasKey ⟨old, hmem, by rw [hkey]⟩] at h
    have h2 : Except.ok (ε := String)
        (rs.map (fun r => if keyOf r = keyOf (put old fresh) then put old fresh else r)) =
        Except.ok rs2 := h
    injection h2 with h3
    subst h3
    have hkput : keyOf (put old fresh) = keyOf fresh := by rw [hkey, hk]
    refine ⟨put old fresh, ⟨?_, hkput, ?_⟩, hidem old fresh⟩
    · refine List.mem_map.mpr ⟨old, hmem, ?_⟩
      rw [if_pos (by rw [hkey])]
    · intro r hr hkr
      obtain ⟨x, hx, hfx⟩ := List.mem_map.mp hr
      by_cases hxk : keyOf x = keyOf (put old fresh)
      · rw [if_pos hxk] at hfx
        exact hfx.symm
      · rw [if_neg hxk] at hfx
        subst hfx
        exact absurd (by rw [hkr, hkput]) hxk

theorem ruleUpsert_fix {rs : List α} {fresh : α}
    (h : upserted keyOf put fresh rs) :
    ruleUpsert keyOf put m1 m2 m3 rs fresh = Except.ok rs := by
  obtain ⟨r0, ⟨hmem, hk, hall⟩, hput⟩ := h
  rw [ruleUpsert_eq_of_get_ok (storeGet_of_sole ⟨hmem, hk, hall⟩), hput,
    storeUpdate_ok_of_hasKey ⟨r0, hmem, rfl⟩]
  have hmapid : rs.map (fun r => if keyOf r = keyOf r0 then r0 else r) = rs := by
    refine map_eq_self_of ?_
    intro x hx
    by_cases hxk : keyOf x = keyOf r0
    · rw [if_pos hxk]
      exact (hall x hx (by rw [hxk, hk])).symm
    · exact if_neg hxk
  rw [hmapid]

theorem ruleUpsert_pres {rs rs2 : List α} {fresh : α} {k : κ} {r0 : α}
    (h : ruleUpsert keyOf put m1 m2 m3 rs fresh = Except.ok rs2)
    (hkey : ∀ a b, keyOf (put a b) = keyOf a)
    (hne : k ≠ keyOf fresh) (hs : soleEntry keyOf rs k r0) :
    soleEntry keyOf rs2 k r0 := by
  obtain ⟨hmem, hk, hall⟩ := hs
  cases hg : storeGet keyOf rs (keyOf fresh) with
  | error e =>
    obtain ⟨he, hfreshAbsent⟩ := storeGet_error_elim hg
    subst he
    rw [ruleUpsert_eq_of_get_err hg] at h
    cases hc : storeCreate keyOf rs fresh with
    | error e2 =>
      obtain ⟨he2, _⟩ := storeCreate_error_elim hc
      subst he2
      rw [hc] at h
      have h2 : Except.ok (α := List α) (ε := String) rs = Except.ok rs2 := h
      injection h2 with h3
      subst h3
      exact ⟨hmem, hk, hall⟩
    | ok rsc =>
      rw [hc] at h
      obtain ⟨hrsc, _⟩ := storeCreate_ok_elim hc
      have h2 : Except.ok (α := List α) (ε := String) rsc = Except.ok rs2 := h
      injection h2 with h3
      subst h3
      subst hrsc
      refine ⟨List.mem_append_left _ hmem, hk, ?_⟩
      intro r hr hkr
      rcases List.mem_append.mp hr with hrl | hrr
      · exact hall r hrl hkr
      · have hfr : r = fresh := by simpa using hrr
        subst hfr
        exact absurd hkr (by simpa using hne.symm)
  | ok old =>
    obtain ⟨homem, hok⟩ := storeGet_ok_mem hg
    rw [ruleUpsert_eq_of_get_ok hg,
      storeUpdate_ok_of_hasKey ⟨old, homem, by rw [hkey]⟩] at h
    have h2 : Except.ok (ε := String)
        (rs.map (fun r => if keyOf r = keyOf (put old fresh) then put old fresh else r)) =
        Except.ok rs2 := h
    injection h2 with h3
    subst h3
    have hkput : keyOf (put old fresh) = keyOf fresh := by rw [hkey, hok]
    refine ⟨?_, hk, ?_⟩
    · refine List.mem_map.mpr ⟨r0, hmem, ?_⟩
      rw [if_neg (by rw [hk, hkput]; exact hne)]
    · intro r hr hkr
      obtain ⟨x, hx, hfx⟩ := List.mem_map.mp hr
      by_cases hxk : keyOf x = keyOf (put old fresh)
      · rw [if_pos hxk] at hfx
        subst hfx
        exact absurd (hkr.symm.trans hkput).symm hne.symm
      · rw [if_neg hxk] at hfx
        subst hfx
        exact hall x hx hkr

theorem groupCreate_ok (keyOf : α → κ) (m : String) (gs : List α) (g : α) :
    ∃ gs2, groupCreate keyOf m gs g = Except.ok gs2 := by
  unfold groupCreate
  cases hc : storeCreate keyOf gs g with
  | error e =>
    obtain ⟨he, _⟩ := storeCreate_error_elim hc
    subst he
    exact ⟨gs, rfl⟩
  | ok gs2 => exact ⟨gs2, rfl⟩

theorem groupCreate_est {m : String} {gs gs2 : List α} {g : α}
    (h : groupCreate keyOf m gs g = Except.ok gs2) :
    hasKey keyOf gs2 (keyOf g) := by
  unfold groupCreate at h
  cases hc : storeCreate keyOf gs g with
  | error e =>
    obtain ⟨he, hkg⟩ := storeCreate_error_elim hc
    subst he
    rw [hc] at h
    have h2 : Except.ok (α := List α) (ε := String) gs = Except.ok gs2 := h
    injection h2 with h3
    subst h3
    exact hkg
  | ok gsc =>
    rw [hc] at h
    obtain ⟨hgsc, _⟩ := storeCreate_ok_elim hc
    have h2 : Except.ok (α := List α) (ε := String) gsc = Except.ok gs2 := h
    injection h2 with h3
    subst h3
    subst hgsc
    exact ⟨g, List.mem_append_right gs (by simp), rfl⟩

theorem groupCreate_fix {m : String} {gs : List α} {g : α}
    (h : hasKey keyOf gs (keyOf g)) :
    groupCreate keyOf m gs g = Except.ok gs := by
  obtain ⟨r, hr, hkr⟩ := h
  unfold groupCreate storeCreate
  rw [if_pos (List.any_eq_true.mpr ⟨r, hr, by simp [hkr]⟩)]
  rfl

theorem groupCreate_pres {m : String} {gs gs2 : List α} {g : α} {k : κ}
    (h : groupCreate keyOf m gs g = Except.ok gs2)
    (hs : hasKey keyOf gs k) : hasKey keyOf gs2 k := by
  obtain ⟨r, hr, hkr⟩ := hs
  unfold groupCreate at h
  cases hc : storeCreate keyOf gs g with
  | error e =>
    obtain ⟨he, _⟩ := storeCreate_error_elim hc
    subst he
    rw [hc] at h
    have h2 : Except.ok (α := List α) (ε := String) gs = Except.ok gs2 := h
    injection h2 with h3
    subst h3
    exact ⟨r, hr, hkr⟩
  | ok gsc =>
    rw [hc] at h
    obtain ⟨hgsc, _⟩ := storeCreate_ok_elim hc
    have h2 : Except.ok (α := List α) (ε := String) gsc = Except.ok gs2 := h
    injection h2 with h3
    subst h3
    subst hgsc
    exact ⟨r, List.mem_append_left _ hr, hkr⟩

end UpsertLemmas

section FoldLemmas

variable {σ β : Type} {step : σ → β → Except String σ}

theorem foldSteps_nil (step : σ → β → Except String σ) (s : σ) :
    foldSteps step s ([] : List β) = Except.ok s := rfl

theorem foldSteps_cons (step : σ → β → Except String σ) (s : σ) (v : β) (t : List β) :
    foldSteps step s (v :: t) =
      match step s v with
      | Except.error e => Except.error e
      | Except.ok s1 => foldSteps step s1 t := rfl

theorem foldSteps_ok_all (hok : ∀ s v, ∃ s2, step s v = Except.ok s2) :
    ∀ (l : List β) (s : σ), ∃ s2, foldSteps step s l = Except.ok s2 := by
  intro l
  induction l with
  | nil => exact fun s => ⟨s, rfl⟩
  | cons v t ih =>
    intro s
    obtain ⟨s1, hs1⟩ := hok s v
    obtain ⟨s2, hs2⟩ := ih s1
    refine ⟨s2, ?_⟩
    rw [foldSteps_cons, hs1]
    exact hs2

theorem foldSteps_preserve (P : σ → Prop) :
    ∀ (l : List β) {s s2 : σ},
      (∀ v ∈ l, ∀ t t2, P t → step t v = Except.ok t2 → P t2) →
      foldSteps step s l = Except.ok s2 → P s → P s2 := by
  intro l
  induction l with
  | nil =>
    intro s s2 _ h hP
    have h2 : (Except.ok s : Except String σ) = Except.ok s2 := h
    injection h2 with h3
    exact h3 ▸ hP
  | cons v t ih =>
    intro s s2 hpres h hP
    rw [foldSteps_cons] at h
    cases hs : step s v with
    | error e =>
      rw [hs] at h
      have h2 : (Except.error e : Except String σ) = Except.ok s2 := h
      exact absurd h2 (by simp)
    | ok s1 =>
      rw [hs] at h
      have h2 : foldSteps step s1 t = Except.ok s2 := h
      exact ih (fun u hu => hpres u (List.mem_cons_of_mem v hu)) h2
        (hpres v (List.mem_cons_self v t) s s1 hP hs)

theorem foldSteps_fix (done : β → σ → Prop)
    (hfix : ∀ v s, done v s → step s v = Except.ok s) :
    ∀ (l : List β) (s : σ), (∀ v ∈ l, done v s) → foldSteps step s l = Except.ok s := by
  intro l
  induction l with
  | nil => exact fun s _ => rfl
  | cons v t ih =>
    intro s hall
    rw [foldSteps_cons, hfix v s (hall v (List.mem_cons_self v t))]
    exact ih s (fun u hu => hall u (List.mem_cons_of_mem v hu))

theorem foldSteps_idem (done : β → σ → Prop) (indep : β → β → Prop)
    (hest : ∀ s v s2, step s v = Except.ok s2 → done v s2)
    (hpres : ∀ v w s s2, indep v w → done w s → step s v = Except.ok s2 → done w s2)
    (hfix : ∀ v s, done v s → step s v = Except.ok s) :
    ∀ (l : List β), l.Pairwise (fun a b => indep b a) →
      ∀ {s s2 : σ}, foldSteps step s l = Except.ok s2 →
        foldSteps step s2 l = Except.ok s2 := by
  intro l
  induction l with
  | nil =>
    intro _ s s2 h
    have h2 : (Except.ok s : Except String σ) = Except.ok s2 := h
    injection h2 with h3
    subst h3
    rfl
  | cons v t ih =>
    intro hpw s s2 h
    obtain ⟨hpw1, hpw2⟩ := List.pairwise_cons.mp hpw
    rw [foldSteps_cons] at h
    cases hs : step s v with
    | error e =>
      rw [hs] at h
      have h2 : (Except.error e : Except String σ) = Except.ok s2 := h
      exact absurd h2 (by simp)
    | ok s1 =>
      rw [hs] at h
      have ht : foldSteps step s1 t = Except.ok s2 := h
      have hdv : done v s2 :=
        foldSteps_preserve (done v) t
          (fun u hu t1 t2 hd hstep => hpres u v t1 t2 (hpw1 u hu) hd hstep)
          ht (hest s v s1 hs)
      rw [foldSteps_cons, hfix v s2 hdv]
      exact ih hpw2 ht

end FoldLemmas

/-- The rule and group of a legacy cluster alert have landed in the store:
the derived rule sits alone under its derived name with the translated
spec, and a group carries the derived group name. -/
def doneClusterAlert (cn : String) (v : ClusterAlert) (st : MigState) : Prop :=
  upserted clusterRuleKey (fun old fresh => { old with spec := fresh.spec })
    (newClusterRule cn v) st.clusterRules ∧
  hasKey clusterGroupKey st.clusterGroups ("migrate-group-" ++ v.name)

theorem str_append_left_cancel {p a b : String} (h : p ++ a = p ++ b) : a = b := by
  have hd := congrArg String.data h
  rw [String.data_append, String.data_append] at hd
  exact String.ext (List.append_cancel_left hd)

theorem migrateOneClusterAlert_ok (cn : String) (st : MigState) (v : ClusterAlert) :
    ∃ st2, migrateOneClusterAlert cn st v = Except.ok st2 := by
  obtain ⟨rs2, hr⟩ :=
    ruleUpsert_ok clusterRuleKey (fun old fresh => { old with spec := fresh.spec })
      ("migrate " ++ v.ns ++ ":" ++ v.name ++ " failed, get alert rule failed")
      ("migrate " ++ v.ns ++ ":" ++ v.name ++ " failed, create alert rule failed")
      ("migrate " ++ v.ns ++ ":" ++ v.name ++ " failed, update alert rule failed")
      (fun a b => rfl) st.clusterRules (newClusterRule cn v)
  obtain ⟨gs2, hgc⟩ := groupCreate_ok clusterGroupKey
    ("migrate failed, create alert group " ++ cn ++ ":" ++
      ("migrate-group-" ++ v.name) ++ " failed")
    st.clusterGroups (clusterLegacyGroup cn v)
  refine ⟨{ st with clusterRules := rs2, clusterGroups := gs2 }, ?_⟩
  unfold migrateOneClusterAlert
  rw [hr, hgc]

theorem migrateOneClusterAlert_est {cn : String} {st st2 : MigState} {v : ClusterAlert}
    (h : migrateOneClusterAlert cn st v = Except.ok st2) : doneClusterAlert cn v st2 := by
  unfold migrateOneClusterAlert at h
  cases hr : ruleUpsert clusterRuleKey (fun old fresh => { old with spec := fresh.spec })
      ("migrate " ++ v.ns ++ ":" ++ v.name ++ " failed, get alert rule failed")
      ("migrate " ++ v.ns ++ ":" ++ v.name ++ " failed, create alert rule failed")
      ("migrate " ++ v.ns ++ ":" ++ v.name ++ " failed, update alert rule failed")
      st.clusterRules (newClusterRule cn v) with
  | error e =>
    rw [hr] at h
    have h2 : (Except.error e : Except String MigState) = Except.ok st2 := h
    exact absurd h2 (by simp)
  | ok rs2 =>
    rw [hr] at h
    cases hgc : groupCreate clusterGroupKey
        ("migrate failed, create alert group " ++ cn ++ ":" ++
          ("migrate-group-" ++ v.name) ++ " failed")
        st.clusterGroups (clusterLegacyGroup cn v) with
    | error e =>
      rw [hgc] at h
      have h2 : (Except.error e : Except String MigState) = Except.ok st2 := h
      exact absurd h2 (by simp)
    | ok gs2 =>
      rw [hgc] at h
      have h2 : Except.ok (ε := String)
          { st with clusterRules := rs2, clusterGroups := gs2 } = Except.ok st2 := h
      injection h2 with h3
      subst h3
      exact ⟨ruleUpsert_est hr (fun a b => rfl) (fun a b => rfl) (fun a => rfl),
        groupCreate_est hgc⟩

theorem migrateOneClusterAlert_pres {cn : String} {v w : ClusterAlert} {st st2 : MigState}
    (hne : v.name ≠ w.name) (hd : doneClusterAlert cn w st)
    (h : migrateOneClusterAlert cn st v = Except.ok st2) : doneClusterAlert cn w st2 := by
  obtain ⟨⟨r0, hsole, hput⟩, hgk⟩ := hd
  unfold migrateOneClusterAlert at h
  cases hr : ruleUpsert clusterRuleKey (fun old fresh => { old with spec := fresh.spec })
      ("migrate " ++ v.ns ++ ":" ++ v.name ++ " failed, get alert rule failed")
      ("migrate " ++ v.ns ++ ":" ++ v.name ++ " failed, create alert rule failed")
      ("migrate " ++ v.ns ++ ":" ++ v.name ++ " failed, update alert rule failed")
      st.clusterRules (newClusterRule cn v) with
  | error e =>
    rw [hr] at h
    have h2 : (Except.error e : Except String MigState) = Except.ok st2 := h
    exact absurd h2 (by simp)
  | ok rs2 =>
    rw [hr] at h
    cases hgc : groupCreate clusterGroupKey
        ("migrate failed, create alert group " ++ cn ++ ":" ++
          ("migrate-group-" ++ v.name) ++ " failed")
        st.clusterGroups (clusterLegacyGroup cn v) with
    | error e =>
      rw [hgc] at h
      have h2 : (Except.error e : Except String MigState) = Except.ok st2 := h
      exact absurd h2 (by simp)
    | ok gs2 =>
      rw [hgc] at h
      have h2 : Except.ok (ε := String)
          { st with clusterRules := rs2, clusterGroups := gs2 } = Except.ok st2 := h
      injection h2 with h3
      subst h3
      have hkne : clusterRuleKey (newClusterRule cn w) ≠ clusterRuleKey (newClusterRule cn v) := by
        intro hc
        have : w.name = v.name := str_append_left_cancel hc
        exact hne this.symm
      refine ⟨⟨r0, ruleUpsert_pres hr (fun a b => rfl) hkne hsole, hput⟩, ?_⟩
      exact groupCreate_pres hgc hgk

theorem migrateOneClusterAlert_fix {cn : String} {v : ClusterAlert} {st : MigState}
    (hd : doneClusterAlert cn v st) : migrateOneClusterAlert cn st v = Except.ok st := by
  obtain ⟨hup, hgk⟩ := hd
  unfold migrateOneClusterAlert
  rw [ruleUpsert_fix hup, groupCreate_fix (show hasKey clusterGroupKey st.clusterGroups
    (clusterGroupKey (clusterLegacyGroup cn v)) from hgk)]

theorem migrateLegacyClusterAlert_ok (cn : String) (calerts : List ClusterAlert)
    (st : MigState) : ∃ st2, migrateLegacyClusterAlert cn calerts st = Except.ok st2 :=
  foldSteps_ok_all (fun s v => migrateOneClusterAlert_ok cn s v) calerts st

theorem migrateLegacyClusterAlert_idem {cn : String} {calerts : List ClusterAlert}
    {st st2 : MigState}
    (hnd : (calerts.map ClusterAlert.name).Nodup)
    (h : migrateLegacyClusterAlert cn calerts st = Except.ok st2) :
    migrateLegacyClusterAlert cn calerts st2 = Except.ok st2 := by
  have hpw : calerts.Pairwise (fun a b => b.name ≠ a.name) :=
    (List.pairwise_map.mp hnd).imp (fun hab => Ne.symm hab)
  exact foldSteps_idem (doneClusterAlert cn) (fun a b => a.name ≠ b.name)
    (fun s v s2 hs => migrateOneClusterAlert_est hs)
    (fun v w s s2 hi hd hs => migrateOneClusterAlert_pres hi hd hs)
    (fun v s hd => migrateOneClusterAlert_fix hd)
    calerts hpw h

/-- One flattened migration step: a project identifier paired with one of
its alerts, migrated with the project name parsed from the identifier. -/
def projStep (s : MigState) (t : String × ProjectAlert) : Except String MigState :=
  migrateOneProjectAlert t.1 (refParse t.1).2 s t.2

/-- The flattened processing sequence of the project migration: every
cluster-owned alert paired with its owning project identifier, in the
order the nested loops visit them. -/
def projectPairs (cn : String) (alerts : List ProjectAlert) : List (String × ProjectAlert) :=
  (groupByProject (alerts.filter (objectInCluster cn))).foldr
    (fun pg acc => pg.2.map (fun v => (pg.1, v)) ++ acc) []

/-- The store key material a processed project alert contributes: the
parsed project name and the legacy alert name. -/
def pairKey (t : String × ProjectAlert) : String × String := ((refParse t.1).2, t.2.name)

/-- Key material of every processed project alert of a migration run. -/
def projectMigKeys (cn : String) (alerts : List ProjectAlert) : List (String × String) :=
  (projectPairs cn alerts).map pairKey

theorem projStep_def (s : MigState) (pid : String) (v : ProjectAlert) :
    projStep s (pid, v) = migrateOneProjectAlert pid (refParse pid).2 s v := rfl

theorem projBucketStep_def (st2 : MigState) (pg : String × List ProjectAlert) :
    projBucketStep st2 pg =
      foldSteps (migrateOneProjectAlert pg.1 (refParse pg.1).2) st2 pg.2 := rfl

theorem foldSteps_append {σ β : Type} (step : σ → β → Except String σ) (l1 l2 : List β) :
    ∀ s, foldSteps step s (l1 ++ l2) =
      match foldSteps step s l1 with
      | Except.error e => Except.error e
      | Except.ok s1 => foldSteps step s1 l2 := by
  induction l1 with
  | nil => intro s; rfl
  | cons v t ih =>
    intro s
    rw [List.cons_append, foldSteps_cons step s v (t ++ l2), foldSteps_cons step s v t]
    cases hs : step s v with
    | error e => rfl
    | ok s1 => exact ih s1

theorem foldSteps_map_pair (pid : String) (vs : List ProjectAlert) :
    ∀ s, foldSteps (migrateOneProjectAlert pid (refParse pid).2) s vs =
      foldSteps projStep s (vs.map (fun v => (pid, v))) := by
  induction vs with
  | nil => intro s; rfl
  | cons v t ih =>
    intro s
    rw [List.map_cons, foldSteps_cons (migrateOneProjectAlert pid (refParse pid).2) s v t,
      foldSteps_cons projStep s (pid, v) (t.map (fun v => (pid, v))), projStep_def]
    cases hs : migrateOneProjectAlert pid (refParse pid).2 s v with
    | error e => rfl
    | ok s1 => exact ih s1

theorem migrateLegacyProjectAlert_eq_flat (cn : String) (alerts : List ProjectAlert) :
    ∀ st, migrateLegacyProjectAlert cn alerts st =
      foldSteps projStep st (projectPairs cn alerts) := by
  unfold migrateLegacyProjectAlert projectPairs
  generalize groupByProject (alerts.filter (objectInCluster cn)) = G
  induction G with
  | nil => intro st; rfl
  | cons pg gt ih =>
    intro st
    rw [List.foldr_cons, foldSteps_append projStep (pg.2.map (fun v => (pg.1, v))) _ st,
      foldSteps_cons projBucketStep st pg gt, projBucketStep_def,
      foldSteps_map_pair pg.1 pg.2 st]
    cases hs : foldSteps projStep st (pg.2.map (fun v => (pg.1, v))) with
    | error e => rfl
    | ok s1 => exact ih s1

/-- The rule and group of one processed project alert have landed in the
store: the derived rule sits alone under its namespaced derived name with
the translated spec, and a group carries the namespaced derived group
name. -/
def doneProjectPair (t : String × ProjectAlert) (st : MigState) : Prop :=
  upserted projectRuleKey (fun old fresh => { old with spec := fresh.spec })
    (newProjectRule t.1 (refParse t.1).2 t.2) st.projectRules ∧
  hasKey projectGroupKey st.projectGroups ((refParse t.1).2, "migrate-group-" ++ t.2.name)

theorem pair_key_ne {p1 p2 n1 n2 : String} (pre : String) (h : (p1, n1) ≠ (p2, n2)) :
    ((p1, pre ++ n1) : String × String) ≠ (p2, pre ++ n2) := by
  intro hc
  have hp : p1 = p2 := congrArg Prod.fst hc
  have hn : pre ++ n1 = pre ++ n2 := congrArg Prod.snd hc
  exact h (by rw [hp, str_append_left_cancel hn])

theorem migrateOneProjectAlert_ok (pid pn : String) (st : MigState) (v : ProjectAlert) :
    ∃ st2, migrateOneProjectAlert pid pn st v = Except.ok st2 := by
  obtain ⟨rs2, hr⟩ :=
    ruleUpsert_ok projectRuleKey (fun old fresh => { old with spec := fresh.spec })
      ("migrate " ++ v.ns ++ ":" ++ v.name ++ " failed, get alert rule failed")
      ("migrate " ++ v.ns ++ ":" ++ v.name ++ " failed, create alert rule failed")
      ("migrate " ++ v.ns ++ ":" ++ v.name ++ " failed, update alert rule failed")
      (fun a b => rfl) st.projectRules (newProjectRule pid pn v)
  obtain ⟨gs2, hgc⟩ := groupCreate_ok projectGroupKey
    ("create migrate alert group " ++ pn ++ ":" ++
      ("migrate-group-" ++ v.name) ++ " failed")
    st.projectGroups (projectLegacyGroup pid pn v)
  refine ⟨{ st with projectRules := rs2, projectGroups := gs2 }, ?_⟩
  unfold migrateOneProjectAlert
  rw [hr, hgc]

theorem migrateOneProjectAlert_est {pid pn : String} {st st2 : MigState} {v : ProjectAlert}
    (h : migrateOneProjectAlert pid pn st v = Except.ok st2) :
    upserted projectRuleKey (fun old fresh => { old with spec := fresh.spec })
      (newProjectRule pid pn v) st2.projectRules ∧
    hasKey projectGroupKey st2.projectGroups (pn, "migrate-group-" ++ v.name) := by
  unfold migrateOneProjectAlert at h
  cases hr : ruleUpsert projectRuleKey (fun old fresh => { old with spec := fresh.spec })
      ("migrate " ++ v.ns ++ ":" ++ v.name ++ " failed, get alert rule failed")
      ("migrate " ++ v.ns ++ ":" ++ v.name ++ " failed, create alert rule failed")
      ("migrate " ++ v.ns ++ ":" ++ v.name ++ " failed, update alert rule failed")
      st.projectRules (newProjectRule pid pn v) with
  | error e =>
    rw [hr] at h
    have h2 : (Except.error e : Except String MigState) = Except.ok st2 := h
    exact absurd h2 (by simp)
  | ok rs2 =>
    rw [hr] at h
    cases hgc : groupCreate projectGroupKey
        ("create migrate alert group " ++ pn ++ ":" ++
          ("migrate-group-" ++ v.name) ++ " failed")
        st.projectGroups (projectLegacyGroup pid pn v) with
    | error e =>
      rw [hgc] at h
      have h2 : (Except.error e : Except String MigState) = Except.ok st2 := h
      exact absurd h2 (by simp)
    | ok gs2 =>
      rw [hgc] at h
      have h2 : Except.ok (ε := String)
          { st with projectRules := rs2, projectGroups := gs2 } = Except.ok st2 := h
      injection h2 with h3
      subst h3
      exact ⟨ruleUpsert_est hr (fun a b => rfl) (fun a b => rfl) (fun a => rfl),
        groupCreate_est hgc⟩

theorem migrateOneProjectAlert_pres {pid pn : String} {v : ProjectAlert}
    {st st2 : MigState} {k : String × String} {r0 : ProjectAlertRule} {gk : String × String}
    (hknr : k ≠ (pn, "migrate-rule-" ++ v.name))
    (hsole : soleEntry projectRuleKey st.projectRules k r0)
    (hgk : hasKey projectGroupKey st.projectGroups gk)
    (h : migrateOneProjectAlert pid pn st v = Except.ok st2) :
    soleEntry projectRuleKey st2.projectRules k r0 ∧
    hasKey projectGroupKey st2.projectGroups gk := by
  unfold migrateOneProjectAlert at h
  cases hr : ruleUpsert projectRuleKey (fun old fresh => { old with spec := fresh.spec })
      ("migrate " ++ v.ns ++ ":" ++ v.name ++ " failed, get alert rule failed")
      ("migrate " ++ v.ns ++ ":" ++ v.name ++ " failed, create alert rule failed")
      ("migrate " ++ v.ns ++ ":" ++ v.name ++ " failed, update alert rule failed")
      st.projectRules (newProjectRule pid pn v) with
  | error e =>
    rw [hr] at h
    have h2 : (Except.error e : Except String MigState) = Except.ok st2 := h
    exact absurd h2 (by simp)
  | ok rs2 =>
    rw [hr] at h
    cases hgc : groupCreate projectGroupKey
        ("create migrate alert group " ++ pn ++ ":" ++
          ("migrate-group-" ++ v.name) ++ " failed")
        st.projectGroups (projectLegacyGroup pid pn v) with
    | error e =>
      rw [hgc] at h
      have h2 : (Except.error e : Except String MigState) = Except.ok st2 := h
      exact absurd h2 (by simp)
    | ok gs2 =>
      rw [hgc] at h
      have h2 : Except.ok (ε := String)
          { st with projectRules := rs2, projectGroups := gs2 } = Except.ok st2 := h
      injection h2 with h3
      subst h3
      exact ⟨ruleUpsert_pres hr (fun a b => rfl) hknr hsole, groupCreate_pres hgc hgk⟩

theorem migrateOneProjectAlert_fix {pid pn : String} {v : ProjectAlert} {st : MigState}
    (hup : upserted projectRuleKey (fun old fresh => { old with spec := fresh.spec })
      (newProjectRule pid pn v) st.projectRules)
    (hgk : hasKey projectGroupKey st.projectGroups (pn, "migrate-group-" ++ v.name)) :
    migrateOneProjectAlert pid pn st v = Except.ok st := by
  unfold migrateOneProjectAlert
  rw [ruleUpsert_fix hup, groupCreate_fix (show hasKey projectGroupKey st.projectGroups
    (projectGroupKey (projectLegacyGroup pid pn v)) from hgk)]

theorem projStep_est {s s2 : MigState} {t : String × ProjectAlert}
    (h : projStep s t = Except.ok s2) : doneProjectPair t s2 := by
  obtain ⟨t1, t2⟩ := t
  exact migrateOneProjectAlert_est h

theorem projStep_pres {u t : String × ProjectAlert} {s s2 : MigState}
    (hi : pairKey u ≠ pairKey t) (hd : doneProjectPair t s)
    (h : projStep s u = Except.ok s2) : doneProjectPair t s2 := by
  obtain ⟨⟨r0, hsole, hput⟩, hgk⟩ := hd
  obtain ⟨u1, u2⟩ := u
  have hi2 : (((refParse t.1).2, t.2.name) : String × String) ≠ ((refParse u1).2, u2.name) :=
    fun hc => hi hc.symm
  have hknr : (((refParse t.1).2, "migrate-rule-" ++ t.2.name) : String × String) ≠
      ((refParse u1).2, "migrate-rule-" ++ u2.name) := pair_key_ne "migrate-rule-" hi2
  obtain ⟨hsole2, hgk2⟩ := migrateOneProjectAlert_pres hknr hsole hgk h
  exact ⟨⟨r0, hsole2, hput⟩, hgk2⟩

theorem projStep_fix {t : String × ProjectAlert} {s : MigState}
    (hd : doneProjectPair t s) : projStep s t = Except.ok s := by
  obtain ⟨hup, hgk⟩ := hd
  obtain ⟨t1, t2⟩ := t
  exact migrateOneProjectAlert_fix hup hgk

theorem migrateLegacyProjectAlert_ok (cn : String) (palerts : List ProjectAlert)
    (st : MigState) : ∃ st2, migrateLegacyProjectAlert cn palerts st = Except.ok st2 := by
  rw [migrateLegacyProjectAlert_eq_flat]
  exact foldSteps_ok_all
    (fun s t => migrateOneProjectAlert_ok t.1 (refParse t.1).2 s t.2)
    (projectPairs cn palerts) st

theorem migrateLegacyProjectAlert_idem {cn : String} {palerts : List ProjectAlert}
    {st st2 : MigState}
    (hnd : (projectMigKeys cn palerts).Nodup)
    (h : migrateLegacyProjectAlert cn palerts st = Except.ok st2) :
    migrateLegacyProjectAlert cn palerts st2 = Except.ok st2 := by
  rw [migrateLegacyProjectAlert_eq_flat] at h ⊢
  have hpw : (projectPairs cn palerts).Pairwise (fun a b => pairKey b ≠ pairKey a) :=
    (List.pairwise_map.mp hnd).imp (fun hab => Ne.symm hab)
  exact foldSteps_idem doneProjectPair (fun a b => pairKey a ≠ pairKey b)
    (fun s t s2 hs => projStep_est hs)
    (fun u t s s2 hi hd hs => projStep_pres hi hd hs)
    (fun t s hd => projStep_fix hd)
    (projectPairs cn palerts) hpw h

theorem storeDelete_error_elim {α κ : Type} [DecidableEq κ]
    {keyOf : α → κ} {rs : List α} {k : κ} {e : StoreErr}
    (h : storeDelete keyOf rs k = Except.error e) :
    e = StoreErr.notFound ∧ ∀ r ∈ rs, keyOf r ≠ k := by
  unfold storeDelete at h
  by_cases hc : rs.any (fun x => decide (keyOf x = k))
  · rw [if_pos hc] at h
    exact absurd h (by simp)
  · rw [if_neg hc] at h
    refine ⟨by simpa using h.symm, ?_⟩
    intro r hr hkr
    exact hc (List.any_eq_true.mpr ⟨r, hr, by simp [hkr]⟩)

theorem storeDelete_ok_elim {α κ : Type} [DecidableEq κ]
    {keyOf : α → κ} {rs rs2 : List α} {k : κ}
    (h : storeDelete keyOf rs k = Except.ok rs2) : ∃ r ∈ rs, keyOf r = k := by
  unfold storeDelete at h
  by_cases hc : rs.any (fun x => decide (keyOf x = k))
  · obtain ⟨r, hr, hkr⟩ := List.any_eq_true.mp hc
    exact ⟨r, hr, by simpa using hkr⟩
  · rw [if_neg hc] at h
    exact absurd h (by simp)

theorem removeLegacyAlerting_ok (st : MigState) :
    ∃ st2, removeLegacyAlerting st = Except.ok st2 ∧
      ("cattle-alerting" ∉ st.namespaces → st2 = st) := by
  unfold removeLegacyAlerting
  cases hd : storeDelete (fun (n : String) => n) st.namespaces "cattle-alerting" with
  | error e =>
    obtain ⟨he, _⟩ := storeDelete_error_elim hd
    subst he
    exact ⟨st, rfl, fun _ => rfl⟩
  | ok ns2 =>
    refine ⟨{ st with namespaces := ns2 }, rfl, ?_⟩
    intro hnot
    obtain ⟨r, hr, hkr⟩ := storeDelete_ok_elim hd
    exact absurd (hkr ▸ hr) hnot

/-- Sample legacy cluster alert used to instantiate the migration
theorems. -/
def sampleClusterAlert : ClusterAlert where
  name := "high-cpu"
  ns := "c-abc"
  spec :=
    { displayName := "High CPU"
      severity := "critical"
      initialWaitSeconds := 30
      repeatIntervalSeconds := 300
      recipients := [{ notifierName := "n1", notifierType := "email", recipient := "a@x.com" }]
      targetNode := some
        { nodeName := "node1", selector := [], condition := "cpu",
          memThreshold := 70, cpuThreshold := 80 }
      targetEvent := none
      targetSystemService := none }

/-- Sample legacy project alert used to instantiate the migration
theorems. -/
def sampleProjectAlert : ProjectAlert where
  name := "pod-alert"
  ns := "p-xyz"
  spec :=
    { projectName := "c-abc:p-xyz"
      displayName := "Pod"
      severity := "warning"
      initialWaitSeconds := 10
      repeatIntervalSeconds := 100
      recipients := []
      targetPod := some
        { podName := "p1", condition := "notrunning",
          restartTimes := 3, restartIntervalSeconds := 60 }
      targetWorkload := none }

/-- An empty store slice. -/
def emptyMigState : MigState where
  clusterRules := []
  clusterGroups := []
  projectRules := []
  projectGroups := []
  namespaces := []

/-- The store after migrating the sample cluster alert from the empty
store. -/
def sampleMigState1 : MigState :=
  { emptyMigState with
    clusterRules := [newClusterRule "c-abc" sampleClusterAlert]
    clusterGroups := [clusterLegacyGroup "c-abc" sampleClusterAlert] }

/-- The store after migrating the sample project alert from the empty
store. -/
def sampleMigState2 : MigState :=
  { emptyMigState with
    projectRules := [newProjectRule "c-abc:p-xyz" "p-xyz" sampleProjectAlert]
    projectGroups := [projectLegacyGroup "c-abc:p-xyz" "p-xyz" sampleProjectAlert] }

/-- Claim C1: invoking the Migration Executor twice over the same unchanged
legacy alert data produces the same final set of alert rules and alert
groups as invoking it once, and the second run returns no error: every
store reached by one successful run is an exact fixed point of a second
run, for cluster and for project migration.  Internally the second run
finds every derived rule and updates it in place rather than creating it,
and every group create lands on the tolerated already-exists branch, so no
duplicate records arise.  The distinctness hypotheses state that the legacy
listings carry no two records with the same store key, which the store
guarantees for real listings. -/
theorem migration_executor_idempotent (cn : String)
    (calerts : List ClusterAlert) (palerts : List ProjectAlert)
    (s1 s1' s2 s2' : MigState)
    (hc : (calerts.map ClusterAlert.name).Nodup)
    (hp : (projectMigKeys cn palerts).Nodup)
    (h1 : migrateLegacyClusterAlert cn calerts s1 = Except.ok s1')
    (h2 : migrateLegacyProjectAlert cn palerts s2 = Except.ok s2') :
    migrateLegacyClusterAlert cn calerts s1' = Except.ok s1' ∧
    migrateLegacyProjectAlert cn palerts s2' = Except.ok s2' :=
  ⟨migrateLegacyClusterAlert_idem hc h1, migrateLegacyProjectAlert_idem hp h2⟩

/-- Concrete run of migration_executor_idempotent: one cluster alert and
one project alert migrated from the empty store, then migrated again
without change or error. -/
theorem migration_executor_idempotent_witness :
    migrateLegacyClusterAlert "c-abc" [sampleClusterAlert] sampleMigState1 =
      Except.ok sampleMigState1 ∧
    migrateLegacyProjectAlert "c-abc" [sampleProjectAlert] sampleMigState2 =
      Except.ok sampleMigState2 :=
  migration_executor_idempotent "c-abc" [sampleClusterAlert] [sampleProjectAlert]
    emptyMigState sampleMigState1 emptyMigState sampleMigState2
    (by decide) (by decide) (by rfl) (by rfl)

/-- Claim C8: conflict outcomes are recovered locally and never surfaced.
In the store model a create fails exactly with already-exists and a delete
of an absent record fails exactly with not-found, and both migration
functions and the legacy cleanup treat those outcomes as success, so every
run returns without error; a migration step whose derived group already
exists leaves the existing group records untouched and continues, and
deleting the legacy cattle-alerting namespace when it is absent returns
success and leaves the store unchanged. -/
theorem conflict_tolerance (cn : String) (calerts : List ClusterAlert)
    (palerts : List ProjectAlert) (st : MigState) :
    (∃ st2, migrateLegacyClusterAlert cn calerts st = Except.ok st2) ∧
    (∃ st2, migrateLegacyProjectAlert cn palerts st = Except.ok st2) ∧
    (∀ v : ClusterAlert,
      hasKey clusterGroupKey st.clusterGroups ("migrate-group-" ++ v.name) →
      ∃ st2, migrateOneClusterAlert cn st v = Except.ok st2 ∧
        st2.clusterGroups = st.clusterGroups) ∧
    (∃ st2, removeLegacyAlerting st = Except.ok st2 ∧
      ("cattle-alerting" ∉ st.namespaces → st2 = st)) := by
  refine ⟨migrateLegacyClusterAlert_ok cn calerts st,
    migrateLegacyProjectAlert_ok cn palerts st, ?_, removeLegacyAlerting_ok st⟩
  intro v hgk
  obtain ⟨rs2, hr⟩ :=
    ruleUpsert_ok clusterRuleKey (fun old fresh => { old with spec := fresh.spec })
      ("migrate " ++ v.ns ++ ":" ++ v.name ++ " failed, get alert rule failed")
      ("migrate " ++ v.ns ++ ":" ++ v.name ++ " failed, create alert rule failed")
      ("migrate " ++ v.ns ++ ":" ++ v.name ++ " failed, update alert rule failed")
      (fun a b => rfl) st.clusterRules (newClusterRule cn v)
  refine ⟨{ st with clusterRules := rs2 }, ?_, rfl⟩
  unfold migrateOneClusterAlert
  rw [hr, groupCreate_fix (show hasKey clusterGroupKey st.clusterGroups
    (clusterGroupKey (clusterLegacyGroup cn v)) from hgk)]

/-- Concrete run of conflict_tolerance on a store already holding the
migrated records of the sample cluster alert and a store without the
legacy namespace. -/
theorem conflict_tolerance_witness :
    (∃ st2, migrateLegacyClusterAlert "c-abc" [sampleClusterAlert] sampleMigState1 =
      Except.ok st2) ∧
    (∃ st2, migrateLegacyProjectAlert "c-abc" [sampleProjectAlert] sampleMigState1 =
      Except.ok st2) ∧
    (∀ v : ClusterAlert,
      hasKey clusterGroupKey sampleMigState1.clusterGroups ("migrate-group-" ++ v.name) →
      ∃ st2, migrateOneClusterAlert "c-abc" sampleMigState1 v = Except.ok st2 ∧
        st2.clusterGroups = sampleMigState1.clusterGroups) ∧
    (∃ st2, removeLegacyAlerting sampleMigState1 = Except.ok st2 ∧
      ("cattle-alerting" ∉ sampleMigState1.namespaces → st2 = sampleMigState1)) :=
  conflict_tolerance "c-abc" [sampleClusterAlert] [sampleProjectAlert] sampleMigState1

/-- Observable side effects of one Upgrade invocation, recorded in
invocation order: the three migration phases, the cluster and catalog
condition reads, and the application update. -/
inductive Event : Type
  | migrateClusterAlerts
  | migrateProjectAlerts
  | removeLegacyNs
  | getCluster
  | getCatalog
  | appUpdate
  deriving DecidableEq, Repr

/-- A project record: the code only reads its name. -/
structure Project where
  name : String
  deriving DecidableEq, Repr

/-- Modelled from the spec: the readiness view of a cluster record, the
truth value of its Ready condition (v3.ClusterConditionReady.IsTrue). -/
structure Cluster where
  ready : Bool
  deriving DecidableEq, Repr

/-- Modelled from the spec: the readiness view of a catalog record, the
truth values of its Upgraded, Refreshed and DiskCached conditions. -/
structure Catalog where
  upgraded : Bool
  refreshed : Bool
  diskCached : Bool
  deriving DecidableEq, Repr

/-- A catalog template record: the code only reads its default version. -/
structure CatalogTemplate where
  defaultVersion : String
  deriving DecidableEq, Repr

/-- The deployed application record: identity, external reference string
and the free-form answers map, which in Go is nilable
(projectv3.App restricted to the fields the code touches). -/
structure App where
  ns : String
  name : String
  externalID : String
  answers : Option (List (String × String))
  deriving DecidableEq, Repr

/-- Modelled from the spec: assignment into a Go string map, replacing the
binding when the key is present and appending it otherwise. -/
def answersInsert (m : List (String × String)) (k v : String) : List (String × String) :=
  if m.any (fun p => decide (p.1 = k)) then
    m.map (fun p => if p.1 = k then (k, v) else p)
  else m ++ [(k, v)]

/-- The Go runtime panic message for writing into a nil map. -/
def nilMapPanicMsg : String := "assignment to entry in nil map"

/-- The Go statement newApp.Spec.Answers[key] = value: a write into a nil
map panics at runtime, otherwise the binding is stored. -/
def setAnswer (app : App) (k v : String) : GoResult App :=
  match app.answers with
  | none => GoResult.panics nilMapPanicMsg
  | some m => GoResult.ok { app with answers := some (answersInsert m k v) }

/-- Modelled from the spec: substring containment (strings.Contains). -/
def goContains (s sub : String) : Bool := decide (List.IsInfix sub.data s.data)

/-- The external collaborators Upgrade consults, as the spec lists them in
section 6: settings, the external reference codec, the template, project,
cluster and catalog listers, the app client and the legacy alert
listings.  Responses are supplied by the environment; the migration store
slice lives in MigState. -/
structure Env where
  clusterName : String
  settingsCatalogID : String
  splitExternalID : String → Except String (String × String × String × String × String)
  parseExternalID : String → Except String String
  templateGet : String → String → Except String CatalogTemplate
  appName : String
  legacyClusterAlerts : List ClusterAlert
  legacyProjectAlerts : List ProjectAlert
  projects : List (Option Project)
  appGet : Except StoreErr App
  clusterGet : Except String Cluster
  catalogGet : Except String Catalog
  appUpdate : App → Except String App

/-- Outcome of one Upgrade invocation: the returned value or error or
panic, the final migration store, and the recorded events. -/
structure UpgradeResult where
  res : GoResult String
  state : MigState
  events : List Event
  deriving Repr

/-- The new external reference string Upgrade assembles
(upgradeimpl.go line 102). -/
def mkExternalID (catalog template version : String) : String :=
  "catalog://?catalog=" ++ catalog ++ "&template=" ++ template ++ "&version=" ++ version

/-- The application upgrade phase of Upgrade (upgradeimpl.go lines 125 to
173): locate the system project, fetch the deployed application by its
fixed name, treat not-found as success, compute the desired state by deep
copy, setting the external reference and forcing answer operator.enabled
to false, skip the update when nothing changed, and otherwise gate the
update on the cluster Ready condition and the catalog Upgraded, Refreshed
and DiskCached conditions. -/
def upgradeApp (env : Env) (newExternalID newVersion systemCatalogName : String)
    (st : MigState) : UpgradeResult :=
  match env.projects with
  | [] => ⟨GoResult.err "get system project failed", st, []⟩
  | none :: _ => ⟨GoResult.err "get system project failed", st, []⟩
  | some systemProject :: _ =>
    match env.appGet with
    | Except.error e =>
      if e = StoreErr.notFound then ⟨GoResult.ok newVersion, st, []⟩
      else ⟨GoResult.err ("get app " ++ systemProject.name ++ ":" ++ env.appName ++
        " failed, " ++ e.message), st, []⟩
    | Except.ok app =>
      match setAnswer { app with externalID := newExternalID } "operator.enabled" "false" with
      | GoResult.panics msg => ⟨GoResult.panics msg, st, []⟩
      | GoResult.err msg => ⟨GoResult.err msg, st, []⟩
      | GoResult.ok newApp =>
        if newApp ≠ app then
          match env.clusterGet with
          | Except.error e =>
            ⟨GoResult.err ("get cluster " ++ env.clusterName ++ " failed, " ++ e), st,
              [Event.getCluster]⟩
          | Except.ok cluster =>
            if cluster.ready = false then
              ⟨GoResult.err ("cluster " ++ env.clusterName ++ " not ready"), st,
                [Event.getCluster]⟩
            else
              match env.catalogGet with
              | Except.error e =>
                ⟨GoResult.err ("get catalog " ++ systemCatalogName ++ " failed, " ++ e), st,
                  [Event.getCluster, Event.getCatalog]⟩
              | Except.ok catalog =>
                if catalog.upgraded = false ∨ catalog.refreshed = false ∨
                    catalog.diskCached = false then
                  ⟨GoResult.err ("catalog " ++ systemCatalogName ++ " not ready"), st,
                    [Event.getCluster, Event.getCatalog]⟩
                else
                  match env.appUpdate newApp with
                  | Except.error e =>
                    ⟨GoResult.err ("update app " ++ app.ns ++ ":" ++ app.name ++
                      " failed, " ++ e), st,
                      [Event.getCluster, Event.getCatalog, Event.appUpdate]⟩
                  | Except.ok _ =>
                    ⟨GoResult.ok newVersion, st,
                      [Event.getCluster, Event.getCatalog, Event.appUpdate]⟩
        else ⟨GoResult.ok newVersion, st, []⟩

/-- The Upgrade entry point (upgradeimpl.go lines 91 to 174): resolve the
new version from settings and the template default, migrate the legacy
alerts and remove the legacy namespace unless the supplied version string
contains the already-migrated marker, then run the application upgrade
phase. -/
def Upgrade (env : Env) (st : MigState) (currentVersion : String) : UpgradeResult :=
  match env.splitExternalID env.settingsCatalogID with
  | Except.error e => ⟨GoResult.err e, st, []⟩
  | Except.ok (templateVersionNamespace, systemCatalogName, _, templateName, _) =>
    match env.templateGet templateVersionNamespace (systemCatalogName ++ "-" ++ templateName) with
    | Except.error e =>
      ⟨GoResult.err ("get template " ++ (systemCatalogName ++ "-" ++ templateName) ++
        " failed: " ++ e), st, []⟩
    | Except.ok template =>
      match env.parseExternalID
          (mkExternalID systemCatalogName templateName template.defaultVersion) with
      | Except.error e => ⟨GoResult.err e, st, []⟩
      | Except.ok newVersion =>
        if goContains currentVersion "system-library-rancher-monitoring" then
          upgradeApp env (mkExternalID systemCatalogName templateName template.defaultVersion)
            newVersion systemCatalogName st
        else
          match migrateLegacyClusterAlert env.clusterName env.legacyClusterAlerts st with
          | Except.error e => ⟨GoResult.err e, st, [Event.migrateClusterAlerts]⟩
          | Except.ok st1 =>
            match migrateLegacyProjectAlert env.clusterName env.legacyProjectAlerts st1 with
            | Except.error e =>
              ⟨GoResult.err e, st1, [Event.migrateClusterAlerts, Event.migrateProjectAlerts]⟩
            | Except.ok st2 =>
              match removeLegacyAlerting st2 with
              | Except.error e =>
                ⟨GoResult.err e, st2,
                  [Event.migrateClusterAlerts, Event.migrateProjectAlerts,
                    Event.removeLegacyNs]⟩
              | Except.ok st3 =>
                let r := upgradeApp env
                  (mkExternalID systemCatalogName templateName template.defaultVersion)
                  newVersion systemCatalogName st3
                ⟨r.res, r.state,
                  [Event.migrateClusterAlerts, Event.migrateProjectAlerts,
                    Event.removeLegacyNs] ++ r.events⟩

theorem upgradeApp_events_sub (env : Env) (a b c : String) (st : MigState) :
    ∀ e ∈ (upgradeApp env a b c st).events,
      e = Event.getCluster ∨ e = Event.getCatalog ∨ e = Event.appUpdate := by
  intro e he
  unfold upgradeApp at he
  repeat' split at he
  all_goals simp at he
  all_goals tauto

theorem Upgrade_dispatch (env : Env) (st : MigState) (cv : String)
    {ns0 cat0 k0 tn0 x0 : String} {tpl : CatalogTemplate} {nv : String}
    (hsplit : env.splitExternalID env.settingsCatalogID =
      Except.ok (ns0, cat0, k0, tn0, x0))
    (htmpl : env.templateGet ns0 (cat0 ++ "-" ++ tn0) = Except.ok tpl)
    (hparse : env.parseExternalID (mkExternalID cat0 tn0 tpl.defaultVersion) =
      Except.ok nv) :
    ∃ st3 pre,
      Upgrade env st cv =
        ⟨(upgradeApp env (mkExternalID cat0 tn0 tpl.defaultVersion) nv cat0 st3).res,
          (upgradeApp env (mkExternalID cat0 tn0 tpl.defaultVersion) nv cat0 st3).state,
          pre ++ (upgradeApp env (mkExternalID cat0 tn0 tpl.defaultVersion) nv cat0 st3).events⟩ ∧
      (pre = [] ∨ pre = [Event.migrateClusterAlerts, Event.migrateProjectAlerts,
        Event.removeLegacyNs]) ∧
      (goContains cv "system-library-rancher-monitoring" = true → pre = []) ∧
      (goContains cv "system-library-rancher-monitoring" = false →
        pre = [Event.migrateClusterAlerts, Event.migrateProjectAlerts,
          Event.removeLegacyNs]) := by
  unfold Upgrade
  simp only [hsplit, htmpl, hparse]
  by_cases hm : goContains cv "system-library-rancher-monitoring" = true
  · simp only [hm, if_true]
    exact ⟨st, [], rfl, Or.inl rfl, fun _ => rfl,
      fun hff => absurd hff (by decide)⟩
  · have hm2 : goContains cv "system-library-rancher-monitoring" = false := by
      simpa using hm
    simp only [hm2, Bool.false_eq_true, if_false]
    obtain ⟨st1, h1⟩ := migrateLegacyClusterAlert_ok env.clusterName env.legacyClusterAlerts st
    simp only [h1]
    obtain ⟨st2, h2⟩ := migrateLegacyProjectAlert_ok env.clusterName env.legacyProjectAlerts st1
    simp only [h2]
    obtain ⟨st3, h3, _⟩ := removeLegacyAlerting_ok st2
    simp only [h3]
    exact ⟨st3, [Event.migrateClusterAlerts, Event.migrateProjectAlerts, Event.removeLegacyNs],
      rfl, Or.inr rfl, fun htt => htt.elim, fun _ => rfl⟩

/-- Claim C6: when the supplied previous version string lacks the marker
substring system-library-rancher-monitoring, Upgrade invokes the cluster
migration, then the project migration, then the legacy cleanup, in that
order, before anything else; when the previous version contains the
marker, none of the three is invoked. -/
theorem version_marker_skip (env : Env) (st : MigState) (cv : String)
    (ns0 cat0 k0 tn0 x0 : String) (tpl : CatalogTemplate) (nv : String)
    (hsplit : env.splitExternalID env.settingsCatalogID =
      Except.ok (ns0, cat0, k0, tn0, x0))
    (htmpl : env.templateGet ns0 (cat0 ++ "-" ++ tn0) = Except.ok tpl)
    (hparse : env.parseExternalID (mkExternalID cat0 tn0 tpl.defaultVersion) =
      Except.ok nv) :
    (goContains cv "system-library-rancher-monitoring" = true →
      Event.migrateClusterAlerts ∉ (Upgrade env st cv).events ∧
      Event.migrateProjectAlerts ∉ (Upgrade env st cv).events ∧
      Event.removeLegacyNs ∉ (Upgrade env st cv).events) ∧
    (goContains cv "system-library-rancher-monitoring" = false →
      ∃ rest, (Upgrade env st cv).events =
        Event.migrateClusterAlerts :: Event.migrateProjectAlerts ::
          Event.removeLegacyNs :: rest) := by
  obtain ⟨st3, pre, hU, hpre, hmt, hmf⟩ := Upgrade_dispatch env st cv hsplit htmpl hparse
  constructor
  · intro hm
    have hpre0 := hmt hm
    subst hpre0
    rw [hU]
    simp only [List.nil_append]
    refine ⟨fun hin => ?_, fun hin => ?_, fun hin => ?_⟩ <;>
      rcases upgradeApp_events_sub env _ nv cat0 st3 _ hin with h | h | h <;> simp_all
  · intro hm
    have hpre3 := hmf hm
    subst hpre3
    rw [hU]
    exact ⟨_, rfl⟩

/-- Claim C7: when fetching the deployed application in the system project
reports not-found, Upgrade returns the resolved new version and no error
and performs no readiness check and no application update; any other fetch
failure is surfaced as an error naming the application. -/
theorem missing_application (env : Env) (st : MigState) (cv : String)
    (ns0 cat0 k0 tn0 x0 : String) (tpl : CatalogTemplate) (nv : String)
    (p : Project) (ps : List (Option Project))
    (hsplit : env.splitExternalID env.settingsCatalogID =
      Except.ok (ns0, cat0, k0, tn0, x0))
    (htmpl : env.templateGet ns0 (cat0 ++ "-" ++ tn0) = Except.ok tpl)
    (hparse : env.parseExternalID (mkExternalID cat0 tn0 tpl.defaultVersion) =
      Except.ok nv)
    (hproj : env.projects = some p :: ps) :
    (env.appGet = Except.error StoreErr.notFound →
      (Upgrade env st cv).res = GoResult.ok nv ∧
      Event.getCluster ∉ (Upgrade env st cv).events ∧
      Event.getCatalog ∉ (Upgrade env st cv).events ∧
      Event.appUpdate ∉ (Upgrade env st cv).events) ∧
    (∀ e2, env.appGet = Except.error e2 → e2 ≠ StoreErr.notFound →
      (Upgrade env st cv).res =
        GoResult.err ("get app " ++ p.name ++ ":" ++ env.appName ++
          " failed, " ++ e2.message)) := by
  obtain ⟨st3, pre, hU, hpre, _, _⟩ := Upgrade_dispatch env st cv hsplit htmpl hparse
  constructor
  · intro happ
    have hA : upgradeApp env (mkExternalID cat0 tn0 tpl.defaultVersion) nv cat0 st3 =
        ⟨GoResult.ok nv, st3, []⟩ := by
      unfold upgradeApp
      simp [hproj, happ]
    rw [hU, hA]
    rcases hpre with h0 | h0 <;> subst h0 <;> exact ⟨rfl, by simp, by simp, by simp⟩
  · intro e2 happ hne
    have hA : upgradeApp env (mkExternalID cat0 tn0 tpl.defaultVersion) nv cat0 st3 =
        ⟨GoResult.err ("get app " ++ p.name ++ ":" ++ env.appName ++
          " failed, " ++ e2.message), st3, []⟩ := by
      unfold upgradeApp
      simp [hproj, happ, hne]
    rw [hU, hA]

/-- Claim C5: when the desired application state, obtained from the fetch
by deep copy, setting the new external reference and forcing answer
operator.enabled to false, is deeply equal to the fetched state, Upgrade
returns the resolved new version with no error, never invokes the
application update, and never reads the cluster or catalog condition
state: readiness is consulted only when a change is needed. -/
theorem noop_guard (env : Env) (st : MigState) (cv : String)
    (ns0 cat0 k0 tn0 x0 : String) (tpl : CatalogTemplate) (nv : String)
    (p : Project) (ps : List (Option Project)) (app newApp : App)
    (hsplit : env.splitExternalID env.settingsCatalogID =
      Except.ok (ns0, cat0, k0, tn0, x0))
    (htmpl : env.templateGet ns0 (cat0 ++ "-" ++ tn0) = Except.ok tpl)
    (hparse : env.parseExternalID (mkExternalID cat0 tn0 tpl.defaultVersion) =
      Except.ok nv)
    (hproj : env.projects = some p :: ps)
    (happ : env.appGet = Except.ok app)
    (hset : setAnswer { app with externalID := mkExternalID cat0 tn0 tpl.defaultVersion }
      "operator.enabled" "false" = GoResult.ok newApp)
    (heq : newApp = app) :
    (Upgrade env st cv).res = GoResult.ok nv ∧
    Event.getCluster ∉ (Upgrade env st cv).events ∧
    Event.getCatalog ∉ (Upgrade env st cv).events ∧
    Event.appUpdate ∉ (Upgrade env st cv).events := by
  obtain ⟨st3, pre, hU, hpre, _, _⟩ := Upgrade_dispatch env st cv hsplit htmpl hparse
  have hA : upgradeApp env (mkExternalID cat0 tn0 tpl.defaultVersion) nv cat0 st3 =
      ⟨GoResult.ok nv, st3, []⟩ := by
    unfold upgradeApp
    simp [hproj, happ, hset, heq]
  rw [hU, hA]
  rcases hpre with h0 | h0 <;> subst h0 <;> exact ⟨rfl, by simp, by simp, by simp⟩

/-- Claim C4: when a change is needed, Upgrade returns an error naming the
cluster and never invokes the application update if the cluster Ready
condition is not true; it returns an error naming the catalog and never
invokes the update if the cluster is ready but one of the catalog
Upgraded, Refreshed or DiskCached conditions is not true; and the update
is invoked exactly when all four conditions are true. -/
theorem readiness_gating (env : Env) (st : MigState) (cv : String)
    (ns0 cat0 k0 tn0 x0 : String) (tpl : CatalogTemplate) (nv : String)
    (p : Project) (ps : List (Option Project)) (app newApp : App)
    (hsplit : env.splitExternalID env.settingsCatalogID =
      Except.ok (ns0, cat0, k0, tn0, x0))
    (htmpl : env.templateGet ns0 (cat0 ++ "-" ++ tn0) = Except.ok tpl)
    (hparse : env.parseExternalID (mkExternalID cat0 tn0 tpl.defaultVersion) =
      Except.ok nv)
    (hproj : env.projects = some p :: ps)
    (happ : env.appGet = Except.ok app)
    (hset : setAnswer { app with externalID := mkExternalID cat0 tn0 tpl.defaultVersion }
      "operator.enabled" "false" = GoResult.ok newApp)
    (hne : newApp ≠ app) :
    (∀ cl, env.clusterGet = Except.ok cl → cl.ready = false →
      (Upgrade env st cv).res = GoResult.err ("cluster " ++ env.clusterName ++ " not ready") ∧
      Event.appUpdate ∉ (Upgrade env st cv).events) ∧
    (∀ cl cat, env.clusterGet = Except.ok cl → cl.ready = true →
      env.catalogGet = Except.ok cat →
      (cat.upgraded = false ∨ cat.refreshed = false ∨ cat.diskCached = false) →
      (Upgrade env st cv).res = GoResult.err ("catalog " ++ cat0 ++ " not ready") ∧
      Event.appUpdate ∉ (Upgrade env st cv).events) ∧
    (Event.appUpdate ∈ (Upgrade env st cv).events ↔
      (∃ cl, env.clusterGet = Except.ok cl ∧ cl.ready = true) ∧
      (∃ cat, env.catalogGet = Except.ok cat ∧ cat.upgraded = true ∧
        cat.refreshed = true ∧ cat.diskCached = true)) := by
  obtain ⟨st3, pre, hU, hpre, _, _⟩ := Upgrade_dispatch env st cv hsplit htmpl hparse
  have hnopre : Event.appUpdate ∉ pre := by
    rcases hpre with h0 | h0 <;> subst h0 <;> decide
  have hmem : ∀ l : List Event, Event.appUpdate ∉ l → Event.appUpdate ∉ pre ++ l :=
    fun l hl h => (List.mem_append.mp h).elim hnopre hl
  refine ⟨?_, ?_, ?_⟩
  · intro cl hcl hcr
    have hA : upgradeApp env (mkExternalID cat0 tn0 tpl.defaultVersion) nv cat0 st3 =
        ⟨GoResult.err ("cluster " ++ env.clusterName ++ " not ready"), st3,
          [Event.getCluster]⟩ := by
      unfold upgradeApp
      simp [hproj, happ, hset, hne, hcl, hcr]
    rw [hU, hA]
    exact ⟨rfl, hmem [Event.getCluster] (by decide)⟩
  · intro cl cat hcl hcr hcat hflags
    have hA : upgradeApp env (mkExternalID cat0 tn0 tpl.defaultVersion) nv cat0 st3 =
        ⟨GoResult.err ("catalog " ++ cat0 ++ " not ready"), st3,
          [Event.getCluster, Event.getCatalog]⟩ := by
      unfold upgradeApp
      rcases hflags with h | h | h <;> simp [hproj, happ, hset, hne, hcl, hcr, hcat, h]
    rw [hU, hA]
    exact ⟨rfl, hmem [Event.getCluster, Event.getCatalog] (by decide)⟩
  · constructor
    · intro hin
      rw [hU] at hin
      have hin2 : Event.appUpdate ∈
          (upgradeApp env (mkExternalID cat0 tn0 tpl.defaultVersion) nv cat0 st3).events :=
        (List.mem_append.mp hin).elim (fun h => absurd h hnopre) id
      cases hcl : env.clusterGet with
      | error e =>
        have hA : upgradeApp env (mkExternalID cat0 tn0 tpl.defaultVersion) nv cat0 st3 =
            ⟨GoResult.err ("get cluster " ++ env.clusterName ++ " failed, " ++ e), st3,
              [Event.getCluster]⟩ := by
          unfold upgradeApp
          simp [hproj, happ, hset, hne, hcl]
        rw [hA] at hin2
        simp at hin2
      | ok cl =>
        cases hcr : cl.ready with
        | false =>
          have hA : upgradeApp env (mkExternalID cat0 tn0 tpl.defaultVersion) nv cat0 st3 =
              ⟨GoResult.err ("cluster " ++ env.clusterName ++ " not ready"), st3,
                [Event.getCluster]⟩ := by
            unfold upgradeApp
            simp [hproj, happ, hset, hne, hcl, hcr]
          rw [hA] at hin2
          simp at hin2
        | true =>
          cases hcat : env.catalogGet with
          | error e =>
            have hA : upgradeApp env (mkExternalID cat0 tn0 tpl.defaultVersion) nv cat0 st3 =
                ⟨GoResult.err ("get catalog " ++ cat0 ++ " failed, " ++ e), st3,
                  [Event.getCluster, Event.getCatalog]⟩ := by
              unfold upgradeApp
              simp [hproj, happ, hset, hne, hcl, hcr, hcat]
            rw [hA] at hin2
            simp at hin2
          | ok cat =>
            cases hu : cat.upgraded with
            | false =>
              have hA : upgradeApp env (mkExternalID cat0 tn0 tpl.defaultVersion) nv cat0 st3 =
                  ⟨GoResult.err ("catalog " ++ cat0 ++ " not ready"), st3,
                    [Event.getCluster, Event.getCatalog]⟩ := by
                unfold upgradeApp
                simp [hproj, happ, hset, hne, hcl, hcr, hcat, hu]
              rw [hA] at hin2
              simp at hin2
            | true =>
              cases hr : cat.refreshed with
              | false =>
                have hA : upgradeApp env (mkExternalID cat0 tn0 tpl.defaultVersion) nv cat0 st3 =
                    ⟨GoResult.err ("catalog " ++ cat0 ++ " not ready"), st3,
                      [Event.getCluster, Event.getCatalog]⟩ := by
                  unfold upgradeApp
                  simp [hproj, happ, hset, hne, hcl, hcr, hcat, hr]
                rw [hA] at hin2
                simp at hin2
              | true =>
                cases hd : cat.diskCached with
                | false =>
                  have hA : upgradeApp env (mkExternalID cat0 tn0 tpl.defaultVersion) nv
                      cat0 st3 =
                      ⟨GoResult.err ("catalog " ++ cat0 ++ " not ready"), st3,
                        [Event.getCluster, Event.getCatalog]⟩ := by
                    unfold upgradeApp
                    simp [hproj, happ, hset, hne, hcl, hcr, hcat, hd]
                  rw [hA] at hin2
                  simp at hin2
                | true =>
                  exact ⟨⟨cl, rfl, hcr⟩, ⟨cat, rfl, hu, hr, hd⟩⟩
    · rintro ⟨⟨cl, hcl, hcr⟩, ⟨cat, hcat, hu, hr, hd⟩⟩
      rw [hU]
      refine List.mem_append.mpr (Or.inr ?_)
      cases hupd : env.appUpdate newApp with
      | error e =>
        have hA : upgradeApp env (mkExternalID cat0 tn0 tpl.defaultVersion) nv cat0 st3 =
            ⟨GoResult.err ("update app " ++ app.ns ++ ":" ++ app.name ++ " failed, " ++ e),
              st3, [Event.getCluster, Event.getCatalog, Event.appUpdate]⟩ := by
          unfold upgradeApp
          simp [hproj, happ, hset, hne, hcl, hcr, hcat, hu, hr, hd, hupd]
        rw [hA]
        simp
      | ok app2 =>
        have hA : upgradeApp env (mkExternalID cat0 tn0 tpl.defaultVersion) nv cat0 st3 =
            ⟨GoResult.ok nv, st3,
              [Event.getCluster, Event.getCatalog, Event.appUpdate]⟩ := by
          unfold upgradeApp
          simp [hproj, happ, hset, hne, hcl, hcr, hcat, hu, hr, hd, hupd]
        rw [hA]
        simp

/-- Claim C10: when the deployed application fetched in the system project
carries a nil answers map, Upgrade panics with the Go nil-map assignment
message instead of returning an error, because the deep copy preserves the
nil map and the forced answer write lands in it; for an application whose
answers map is non-nil, Upgrade never panics. -/
theorem nil_answers_panic (env : Env) (st : MigState) (cv : String)
    (ns0 cat0 k0 tn0 x0 : String) (tpl : CatalogTemplate) (nv : String)
    (p : Project) (ps : List (Option Project)) (app : App)
    (hsplit : env.splitExternalID env.settingsCatalogID =
      Except.ok (ns0, cat0, k0, tn0, x0))
    (htmpl : env.templateGet ns0 (cat0 ++ "-" ++ tn0) = Except.ok tpl)
    (hparse : env.parseExternalID (mkExternalID cat0 tn0 tpl.defaultVersion) =
      Except.ok nv)
    (hproj : env.projects = some p :: ps)
    (happ : env.appGet = Except.ok app) :
    (app.answers = none → (Upgrade env st cv).res = GoResult.panics nilMapPanicMsg) ∧
    (∀ m, app.answers = some m → ∀ s, (Upgrade env st cv).res ≠ GoResult.panics s) := by
  obtain ⟨st3, pre, hU, _, _, _⟩ := Upgrade_dispatch env st cv hsplit htmpl hparse
  constructor
  · intro hans
    have hA : upgradeApp env (mkExternalID cat0 tn0 tpl.defaultVersion) nv cat0 st3 =
        ⟨GoResult.panics nilMapPanicMsg, st3, []⟩ := by
      unfold upgradeApp
      simp [hproj, happ, setAnswer, hans]
    rw [hU, hA]
  · intro m hans s
    rw [hU]
    show (upgradeApp env (mkExternalID cat0 tn0 tpl.defaultVersion) nv cat0 st3).res ≠
      GoResult.panics s
    unfold upgradeApp
    simp only [hproj, happ, setAnswer, hans]
    repeat' split
    all_goals simp

/-- Sample template with default version 0.0.2. -/
def sampleTemplate : CatalogTemplate := { defaultVersion := "0.0.2" }

/-- The external reference Upgrade assembles for the sample
environment. -/
def sampleNewExternalID : String := mkExternalID "system-library" "rancher-monitoring" "0.0.2"

/-- Sample deployed application still carrying the old reference. -/
def sampleApp : App where
  ns := "p-system"
  name := "cluster-alerting"
  externalID := "catalog://old"
  answers := some []

/-- The desired state computed from the sample application. -/
def sampleNewApp : App where
  ns := "p-system"
  name := "cluster-alerting"
  externalID := sampleNewExternalID
  answers := some [("operator.enabled", "false")]

/-- Sample collaborator environment: resolution succeeds with version
0.0.2, one system project, the sample application deployed, the cluster
not ready and the catalog fully ready. -/
def sampleEnv : Env where
  clusterName := "c-abc"
  settingsCatalogID := "cattle-global-data:system-library-rancher-monitoring"
  splitExternalID := fun _ =>
    Except.ok ("cattle-global-data", "system-library", "catalog", "rancher-monitoring", "")
  parseExternalID := fun _ => Except.ok "0.0.2"
  templateGet := fun _ _ => Except.ok sampleTemplate
  appName := "cluster-alerting"
  legacyClusterAlerts := [sampleClusterAlert]
  legacyProjectAlerts := [sampleProjectAlert]
  projects := [some { name := "p-system" }]
  appGet := Except.ok sampleApp
  clusterGet := Except.ok { ready := false }
  catalogGet := Except.ok { upgraded := true, refreshed := true, diskCached := true }
  appUpdate := fun a => Except.ok a

/-- Concrete run of readiness_gating: the sample cluster is not ready, so
Upgrade fails naming the cluster and never performs the update. -/
theorem readiness_gating_witness :
    (Upgrade sampleEnv emptyMigState "0.0.1").res =
      GoResult.err ("cluster " ++ sampleEnv.clusterName ++ " not ready") ∧
    Event.appUpdate ∉ (Upgrade sampleEnv emptyMigState "0.0.1").events :=
  (readiness_gating sampleEnv emptyMigState "0.0.1"
    "cattle-global-data" "system-library" "catalog" "rancher-monitoring" ""
    sampleTemplate "0.0.2" { name := "p-system" } [] sampleApp sampleNewApp
    rfl rfl rfl rfl rfl rfl (by decide)).1 { ready := false } rfl rfl

/-- Sample environment whose application already carries the desired
state. -/
def sampleEnvSteady : Env := { sampleEnv with appGet := Except.ok sampleNewApp }

/-- Concrete run of noop_guard: the application already matches the
desired state, so Upgrade returns 0.0.2 without reading the cluster or
catalog and without updating. -/
theorem noop_guard_witness :
    (Upgrade sampleEnvSteady emptyMigState "0.0.1").res = GoResult.ok "0.0.2" ∧
    Event.getCluster ∉ (Upgrade sampleEnvSteady emptyMigState "0.0.1").events ∧
    Event.getCatalog ∉ (Upgrade sampleEnvSteady emptyMigState "0.0.1").events ∧
    Event.appUpdate ∉ (Upgrade sampleEnvSteady emptyMigState "0.0.1").events :=
  noop_guard sampleEnvSteady emptyMigState "0.0.1"
    "cattle-global-data" "system-library" "catalog" "rancher-monitoring" ""
    sampleTemplate "0.0.2" { name := "p-system" } [] sampleNewApp sampleNewApp
    rfl rfl rfl rfl rfl rfl rfl

/-- Concrete run of version_marker_skip: with previous version 0.0.1 the
three migration phases run first and in order; with a previous version
containing the marker the cluster migration is never invoked. -/
theorem version_marker_skip_witness :
    (∃ rest, (Upgrade sampleEnv emptyMigState "0.0.1").events =
      Event.migrateClusterAlerts :: Event.migrateProjectAlerts ::
        Event.removeLegacyNs :: rest) ∧
    Event.migrateClusterAlerts ∉
      (Upgrade sampleEnv emptyMigState "system-library-rancher-monitoring-0.0.2").events :=
  ⟨(version_marker_skip sampleEnv emptyMigState "0.0.1"
      "cattle-global-data" "system-library" "catalog" "rancher-monitoring" ""
      sampleTemplate "0.0.2" rfl rfl rfl).2 (by decide),
    ((version_marker_skip sampleEnv emptyMigState "system-library-rancher-monitoring-0.0.2"
      "cattle-global-data" "system-library" "catalog" "rancher-monitoring" ""
      sampleTemplate "0.0.2" rfl rfl rfl).1 (by decide)).1⟩

/-- Sample environment where the application was never deployed. -/
def sampleEnvMissingApp : Env := { sampleEnv with appGet := Except.error StoreErr.notFound }

/-- Concrete run of missing_application: the application is absent, so
Upgrade returns 0.0.2 with no readiness read and no update. -/
theorem missing_application_witness :
    (Upgrade sampleEnvMissingApp emptyMigState "0.0.1").res = GoResult.ok "0.0.2" ∧
    Event.getCluster ∉ (Upgrade sampleEnvMissingApp emptyMigState "0.0.1").events ∧
    Event.getCatalog ∉ (Upgrade sampleEnvMissingApp emptyMigState "0.0.1").events ∧
    Event.appUpdate ∉ (Upgrade sampleEnvMissingApp emptyMigState "0.0.1").events :=
  (missing_application sampleEnvMissingApp emptyMigState "0.0.1"
    "cattle-global-data" "system-library" "catalog" "rancher-monitoring" ""
    sampleTemplate "0.0.2" { name := "p-system" } [] rfl rfl rfl rfl).1 rfl

/-- Sample environment whose deployed application carries a nil answers
map. -/
def sampleEnvNilAnswers : Env :=
  { sampleEnv with appGet := Except.ok { sampleApp with answers := none } }

/-- Concrete run of nil_answers_panic: the fetched application has a nil
answers map and Upgrade panics with the Go nil-map message. -/
theorem nil_answers_panic_witness :
    (Upgrade sampleEnvNilAnswers emptyMigState "0.0.1").res =
      GoResult.panics nilMapPanicMsg :=
  (nil_answers_panic sampleEnvNilAnswers emptyMigState "0.0.1"
    "cattle-global-data" "system-library" "catalog" "rancher-monitoring" ""
    sampleTemplate "0.0.2" { name := "p-system" } [] { sampleApp with answers := none }
    rfl rfl rfl rfl rfl).1 rfl

end AlertUpgrade
